import Mathlib

/-!
Verification development for the Chatter real-time multi-persona chat
platform.  The definitions below are a shallow embedding, translated
directly from the Python sources of the repository:

* `apps/chat_gateway/src/safety.py`          — sanitization and moderation
* `apps/chat_gateway/src/ws_server.py`       — bounded broadcast queue
* `apps/persona_workers/src/text_utils.py`   — mention / hype detection
* `apps/persona_workers/src/policy.py`       — persona decision engine
* `apps/persona_workers/src/state.py`        — sliding-window room state
* `apps/persona_workers/src/generator.py`    — deterministic reply generator
* `apps/persona_workers/src/auto_commentary_engine.py` — auto-commentary gates
* `apps/stream_perceptor/src/main.py`        — frame processing
* `packages/llm_runtime/src/hash_utils.py`   — canonical prompt hashing

Machine integers are modelled as `Nat` with explicit reduction modulo
`2 ^ 64` (BLAKE2b) or `2 ^ 32` (SHA-256); Python floats are modelled as
exact rationals `ℚ`, which preserves the algebraic structure of the
threshold arithmetic.  Strings are Lean `String`s; Python `str.lower` /
`str.upper` are modelled character-wise (they agree on the ASCII range,
which covers every string the claims quantify over).
-/

set_option maxRecDepth 20000

namespace Chatter

/-! ## 64-bit and 32-bit word arithmetic on `Nat` -/

/-- Addition modulo `2 ^ 64`. -/
def add64 (a b : Nat) : Nat := (a + b) % (2 ^ 64)

/-- Bitwise xor (operands are kept below `2 ^ 64`, so no reduction needed). -/
def xor64 (a b : Nat) : Nat := Nat.xor a b

/-- Right rotation of a 64-bit word. -/
def rotr64 (x n : Nat) : Nat :=
  (x / 2 ^ n + x % 2 ^ n * 2 ^ (64 - n)) % (2 ^ 64)

/-- Addition modulo `2 ^ 32`. -/
def add32 (a b : Nat) : Nat := (a + b) % (2 ^ 32)

/-- Right rotation of a 32-bit word. -/
def rotr32 (x n : Nat) : Nat :=
  (x / 2 ^ n + x % 2 ^ n * 2 ^ (32 - n)) % (2 ^ 32)

/-- Logical right shift of a 32-bit word. -/
def shr32 (x n : Nat) : Nat := x / 2 ^ n

/-! ## Bytes -/

/-- A byte string is a list of naturals, each `< 256`. -/
abbrev Bytes := List Nat

/-- Big-endian interpretation of a byte string as an unsigned integer
(Python `int.from_bytes(digest, "big")`). -/
def bytesToNatBE (bs : Bytes) : Nat := bs.foldl (fun acc b => acc * 256 + b) 0

/-- Split a list into chunks of `n` elements (the last chunk may be short). -/
def chunksGo (n : Nat) : Nat → List Nat → List (List Nat)
  | 0, _ => []
  | _, [] => []
  | Nat.succ fuel, l => l.take n :: chunksGo n fuel (l.drop n)

/-- Splitting a list into consecutive chunks of `n` elements. -/
def chunks (n : Nat) (l : List Nat) : List (List Nat) := chunksGo n l.length l

/-- UTF-8 encoding of a single character (Python `str.encode("utf-8")`). -/
def utf8EncodeChar (c : Char) : Bytes :=
  let n := c.toNat
  if n < 0x80 then [n]
  else if n < 0x800 then [0xC0 + n / 64, 0x80 + n % 64]
  else if n < 0x10000 then [0xE0 + n / 4096, 0x80 + n / 64 % 64, 0x80 + n % 64]
  else [0xF0 + n / 262144, 0x80 + n / 4096 % 64, 0x80 + n / 64 % 64, 0x80 + n % 64]

/-- UTF-8 encoding of a string. -/
def utf8Encode (s : String) : Bytes := (s.data.map utf8EncodeChar).flatten

/-! ## BLAKE2b (RFC 7693), unkeyed, arbitrary digest size

Faithful model of Python `hashlib.blake2b(data, digest_size=n)`. -/

/-- The BLAKE2b initialization vector. -/
def blakeIV : List Nat :=
  [0x6a09e667f3bcc908, 0xbb67ae8584caa73b, 0x3c6ef372fe94f82b, 0xa54ff53a5f1d36f1,
   0x510e527fade682d1, 0x9b05688c2b3e6c1f, 0x1f83d9abfb41bd6b, 0x5be0cd19137e2179]

/-- The BLAKE2b message schedule permutations. -/
def blakeSigma : List (List Nat) :=
  [[0, 1, 2, 3, 4, 5, 6, 7, 8, 9, 10, 11, 12, 13, 14, 15],
   [14, 10, 4, 8, 9, 15, 13, 6, 1, 12, 0, 2, 11, 7, 5, 3],
   [11, 8, 12, 0, 5, 2, 15, 13, 10, 14, 3, 6, 7, 1, 9, 4],
   [7, 9, 3, 1, 13, 12, 11, 14, 2, 6, 5, 10, 4, 0, 15, 8],
   [9, 0, 5, 7, 2, 4, 10, 15, 14, 1, 11, 12, 6, 8, 3, 13],
   [2, 12, 6, 10, 0, 11, 8, 3, 4, 13, 7, 5, 15, 14, 1, 9],
   [12, 5, 1, 15, 14, 13, 4, 10, 0, 7, 6, 3, 9, 2, 8, 11],
   [13, 11, 7, 14, 12, 1, 3, 9, 5, 0, 15, 4, 8, 6, 2, 10],
   [6, 15, 14, 9, 11, 3, 0, 8, 12, 2, 13, 7, 1, 4, 10, 5],
   [10, 2, 8, 4, 7, 6, 1, 5, 15, 11, 9, 14, 3, 12, 13, 0]]

/-- The BLAKE2b quarter-round `G`, acting on the work vector at indices
`ia ib ic id` with message words `x y`. -/
def blakeG (v : List Nat) (ia ib ic id x y : Nat) : List Nat :=
  let a := v.getD ia 0
  let b := v.getD ib 0
  let c := v.getD ic 0
  let d := v.getD id 0
  let a := add64 (add64 a b) x
  let d := rotr64 (xor64 d a) 32
  let c := add64 c d
  let b := rotr64 (xor64 b c) 24
  let a := add64 (add64 a b) y
  let d := rotr64 (xor64 d a) 16
  let c := add64 c d
  let b := rotr64 (xor64 b c) 63
  ((((v.set ia a).set ib b).set ic c).set id d)

/-- One BLAKE2b round with message words `m` and permutation `s`. -/
def blakeRound (m s v : List Nat) : List Nat :=
  let mi := fun j => m.getD (s.getD j 0) 0
  let v := blakeG v 0 4 8 12 (mi 0) (mi 1)
  let v := blakeG v 1 5 9 13 (mi 2) (mi 3)
  let v := blakeG v 2 6 10 14 (mi 4) (mi 5)
  let v := blakeG v 3 7 11 15 (mi 6) (mi 7)
  let v := blakeG v 0 5 10 15 (mi 8) (mi 9)
  let v := blakeG v 1 6 11 12 (mi 10) (mi 11)
  let v := blakeG v 2 7 8 13 (mi 12) (mi 13)
  blakeG v 3 4 9 14 (mi 14) (mi 15)

/-- Interpret a (padded) 128-byte block as 16 little-endian 64-bit words. -/
def blakeWordsOf (block : Bytes) : List Nat :=
  (List.range 16).map fun j =>
    (List.range 8).foldr (fun k acc => acc * 256 + block.getD (8 * j + k) 0) 0

/-- The BLAKE2b compression function `F(h, m, t, f)`. -/
def blakeCompress (h : List Nat) (block : Bytes) (t : Nat) (last : Bool) : List Nat :=
  let m := blakeWordsOf block
  let v := h ++ blakeIV
  let v := v.set 12 (xor64 (v.getD 12 0) (t % (2 ^ 64)))
  let v := v.set 13 (xor64 (v.getD 13 0) (t / 2 ^ 64 % (2 ^ 64)))
  let v := if last then v.set 14 (xor64 (v.getD 14 0) (2 ^ 64 - 1)) else v
  let v := (List.range 12).foldl (fun v i => blakeRound m (blakeSigma.getD (i % 10) []) v) v
  (List.range 8).map fun i => xor64 (h.getD i 0) (xor64 (v.getD i 0) (v.getD (i + 8) 0))

/-- Process the message blocks; the final block carries the total input
length as counter and the finalization flag. -/
def blakeLoop (h : List Nat) (blocks : List Bytes) (processed : Nat) : List Nat :=
  match blocks with
  | [] => h
  | [b] => blakeCompress h b (processed + b.length) true
  | b :: rest => blakeLoop (blakeCompress h b (processed + 128) false) rest (processed + 128)

/-- BLAKE2b digest of `msg` with `outLen` output bytes (unkeyed):
Python `hashlib.blake2b(msg, digest_size=outLen).digest()`. -/
def blake2b (outLen : Nat) (msg : Bytes) : Bytes :=
  let h0 := blakeIV.set 0 (xor64 (blakeIV.getD 0 0) (0x01010000 + outLen))
  let blocks := if msg.isEmpty then [[]] else chunks 128 msg
  let h := blakeLoop h0 blocks 0
  ((h.map fun w => (List.range 8).map fun k => w / 256 ^ k % 256).flatten).take outLen

/-- The deterministic unit-interval score used throughout the repository:
first 8 bytes of `BLAKE2b(seed, digest_size=8)` read as an unsigned
big-endian integer, divided by `2 ^ 64`
(`policy.PolicyEngine._deterministic_hash_score`). -/
def deterministicHashScore (value : String) : ℚ :=
  (bytesToNatBE (blake2b 8 (utf8Encode value)) : ℚ) / (2 ^ 64 : ℚ)

/-! ## SHA-256 (FIPS 180-4)

Faithful model of Python `hashlib.sha256(data)`. -/

/-- The SHA-256 initial hash value (FIPS 180-4 section 5.3.3, decimal). -/
def shaH0 : List Nat :=
  [1779033703, 3144134277, 1013904242, 2773480762,
   1359893119, 2600822924, 528734635, 1541459225]

/-- The SHA-256 round constants (FIPS 180-4 section 4.2.2, decimal). -/
def shaK : List Nat :=
  [1116352408, 1899447441, 3049323471, 3921009573, 961987163, 1508970993,
   2453635748, 2870763221, 3624381080, 310598401, 607225278, 1426881987,
   1925078388, 2162078206, 2614888103, 3248222580, 3835390401, 4022224774,
   264347078, 604807628, 770255983, 1249150122, 1555081692, 1996064986,
   2554220882, 2821834349, 2952996808, 3210313671, 3336571891, 3584528711,
   113926993, 338241895, 666307205, 773529912, 1294757372, 1396182291,
   1695183700, 1986661051, 2177026350, 2456956037, 2730485921, 2820302411,
   3259730800, 3345764771, 3516065817, 3600352804, 4094571909, 275423344,
   430227734, 506948616, 659060556, 883997877, 958139571, 1322822218,
   1537002063, 1747873779, 1955562222, 2024104815, 2227730452, 2361852424,
   2428436474, 2756734187, 3204031479, 3329325298]

/-- SHA-256 padding: append `0x80`, zeros, then the 64-bit big-endian bit length. -/
def shaPad (msg : Bytes) : Bytes :=
  let len := msg.length
  let zeros := (64 - (len + 9) % 64) % 64
  msg ++ [0x80] ++ List.replicate zeros 0 ++
    ((List.range 8).map fun k => len * 8 / 256 ^ (7 - k) % 256)

/-- Interpret a 64-byte block as 16 big-endian 32-bit words. -/
def shaWordsOf (block : Bytes) : List Nat :=
  (List.range 16).map fun j =>
    (List.range 4).foldl (fun acc k => acc * 256 + block.getD (4 * j + k) 0) 0

/-- Extend 16 message words to the 64-entry message schedule. -/
def shaSchedule : Nat → List Nat → List Nat
  | 0, w => w
  | Nat.succ fuel, w =>
    let t := w.length
    let w2 := w.getD (t - 2) 0
    let w7 := w.getD (t - 7) 0
    let w15 := w.getD (t - 15) 0
    let w16 := w.getD (t - 16) 0
    let s0 := Nat.xor (rotr32 w15 7) (Nat.xor (rotr32 w15 18) (shr32 w15 3))
    let s1 := Nat.xor (rotr32 w2 17) (Nat.xor (rotr32 w2 19) (shr32 w2 10))
    shaSchedule fuel (w ++ [add32 (add32 s1 w7) (add32 s0 w16)])

/-- One SHA-256 round step on the 8-word working state. -/
def shaStep (st : List Nat) (kw : Nat) : List Nat :=
  let a := st.getD 0 0
  let b := st.getD 1 0
  let c := st.getD 2 0
  let d := st.getD 3 0
  let e := st.getD 4 0
  let f := st.getD 5 0
  let g := st.getD 6 0
  let h := st.getD 7 0
  let s1 := Nat.xor (rotr32 e 6) (Nat.xor (rotr32 e 11) (rotr32 e 25))
  let ch := Nat.xor (Nat.land e f) (Nat.land (Nat.xor e (2 ^ 32 - 1)) g)
  let t1 := add32 (add32 h s1) (add32 ch kw)
  let s0 := Nat.xor (rotr32 a 2) (Nat.xor (rotr32 a 13) (rotr32 a 22))
  let mj := Nat.xor (Nat.land a b) (Nat.xor (Nat.land a c) (Nat.land b c))
  let t2 := add32 s0 mj
  [add32 t1 t2, a, b, c, add32 d t1, e, f, g]

/-- SHA-256 compression of one 64-byte block. -/
def shaCompress (h : List Nat) (block : Bytes) : List Nat :=
  let w := shaSchedule 48 (shaWordsOf block)
  let kw := (List.range 64).map fun i => add32 (shaK.getD i 0) (w.getD i 0)
  let st := kw.foldl shaStep h
  (List.range 8).map fun i => add32 (h.getD i 0) (st.getD i 0)

/-- SHA-256 digest of `msg` as 32 bytes. -/
def sha256 (msg : Bytes) : Bytes :=
  let h := (chunks 64 (shaPad msg)).foldl shaCompress shaH0
  (h.map fun w => (List.range 4).map fun k => w / 256 ^ (3 - k) % 256).flatten

/-- Lower-case hex rendering of a byte string (Python `hexdigest()`). -/
def bytesToHex (bs : Bytes) : String :=
  ⟨(bs.map fun b => ["0123456789abcdef".data.getD (b / 16) '0',
                     "0123456789abcdef".data.getD (b % 16) '0']).flatten⟩

/-- SHA-256 hex digest of a string (Python `hashlib.sha256(s.encode("utf-8")).hexdigest()`). -/
def sha256HexOfString (s : String) : String := bytesToHex (sha256 (utf8Encode s))

/-! ## Python string helpers

Character-wise models of the CPython `str` operations the repository
uses; they agree with CPython on the ASCII range. -/

/-- Whitespace characters recognized by Python `str.strip()` and `\s`
(ASCII fragment). -/
def isPySpace (c : Char) : Bool :=
  c = ' ' ∨ c = '\t' ∨ c = '\n' ∨ c = '\r' ∨ c = '\x0b' ∨ c = '\x0c'

/-- Word characters matched by the regex class `\w` (ASCII fragment). -/
def isWordChar (c : Char) : Bool := c.isAlphanum ∨ c = '_'

/-- Python `str.strip()` on a character list. -/
def pyStripList (l : List Char) : List Char :=
  ((l.dropWhile isPySpace).reverse.dropWhile isPySpace).reverse

/-- Python `str.strip()`. -/
def pyStrip (s : String) : String := ⟨pyStripList s.data⟩

/-- Python `str.lower()` (character-wise; ASCII fragment). -/
def pyLower (s : String) : String := ⟨s.data.map Char.toLower⟩

/-- Python `str.upper()` (character-wise; ASCII fragment). -/
def pyUpper (s : String) : String := ⟨s.data.map Char.toUpper⟩

/-- Python substring test `needle in hay`. -/
def pyContains (needle hay : String) : Bool := decide (needle.data <:+: hay.data)

/-- Collapse of whitespace runs into single spaces:
the regex substitution `re.sub(r"\s+", " ", text)`. -/
def collapseWsGo : List Char → List Char
  | [] => []
  | [c] => if isPySpace c then [' '] else [c]
  | c1 :: c2 :: rest =>
    if isPySpace c1 then
      if isPySpace c2 then collapseWsGo (c2 :: rest)
      else ' ' :: collapseWsGo (c2 :: rest)
    else c1 :: collapseWsGo (c2 :: rest)

/-- Replacement of every char not in `\w` nor in `\s` by a space:
the regex substitution `re.sub(r"[^\w\s]", " ", text)`. -/
def replaceNonWordSpace (l : List Char) : List Char :=
  l.map fun c => if isWordChar c ∨ isPySpace c then c else ' '

/-- Python `str.split()` with no separator: split on whitespace runs,
discarding empty tokens. -/
def pySplitWsGo : Nat → List Char → List (List Char)
  | 0, _ => []
  | _, [] => []
  | Nat.succ fuel, l =>
    let l := l.dropWhile isPySpace
    match l with
    | [] => []
    | l => (l.takeWhile (fun c => ¬ isPySpace c)) :: pySplitWsGo fuel (l.dropWhile (fun c => ¬ isPySpace c))

/-- Python `str.split()` on a string. -/
def pySplitWs (s : String) : List String :=
  (pySplitWsGo s.data.length s.data).map fun l => ⟨l⟩

/-! ## text_utils.py (persona workers) -/

/-- Embedding of `text_utils.sanitize_text`: replace LF and CR with
spaces, collapse whitespace runs, strip. -/
def sanitizeText (s : String) : String :=
  let replaced := s.data.map fun c => if c = '\n' ∨ c = '\r' then ' ' else c
  ⟨pyStripList (collapseWsGo replaced)⟩

/-- Worker for `strip_mentions`: the substitution `re.sub(r"@\w+", "", value)`
removes each `@` followed by a maximal nonempty run of word characters. -/
def stripMentionsGo : Nat → List Char → List Char
  | 0, l => l
  | Nat.succ _, [] => []
  | Nat.succ fuel, c :: rest =>
    let nextIsWord : Bool := match rest.head? with | some c2 => isWordChar c2 | none => false
    if c == '@' && nextIsWord then
      stripMentionsGo fuel (rest.dropWhile isWordChar)
    else c :: stripMentionsGo fuel rest

/-- Embedding of `text_utils.strip_mentions`. -/
def stripMentions (s : String) : String := ⟨stripMentionsGo s.data.length s.data⟩

/-- Embedding of `text_utils.truncate` (Python slicing and the ellipsis
character on overflow). -/
def pyTruncate (value : String) (maxChars : Int) : String :=
  if maxChars ≤ 0 then ""
  else if (value.data.length : Int) ≤ maxChars then value
  else if maxChars ≤ 1 then ⟨value.data.take maxChars.toNat⟩
  else ⟨value.data.take (maxChars.toNat - 1) ++ ['…']⟩

/-- Python `value.startswith("@")`. -/
def startsWithAt (s : String) : Bool :=
  match s.data with
  | c :: _ => c = '@'
  | [] => false

/-- Embedding of `text_utils.detect_mentions`: case-insensitive substring
match of the display name, bare and `@`-prefixed. -/
def detectMentions (content displayName : String) : Bool :=
  let lowered := pyLower content
  let tokens := if displayName ≠ "" then [pyLower displayName] else []
  let tokens :=
    if displayName ≠ "" ∧ ¬ startsWithAt displayName then
      tokens ++ ["@" ++ pyLower displayName]
    else tokens
  tokens.any fun token => token ≠ "" ∧ pyContains token lowered

/-- The fixed hype token set `text_utils.HYPE_TOKENS`. -/
def HYPE_TOKENS : List String := ["POG", "POGGERS", "OMEGALUL", "LUL", "KEKW", "W", "HYPE"]

/-- Embedding of `text_utils.detect_hype_tokens`: any hype token is a
substring of the upper-cased content. -/
def detectHypeTokens (content : String) : Bool :=
  let upper := pyUpper content
  HYPE_TOKENS.any fun token => pyContains token upper

/-- Embedding of `text_utils.choose_from_list`. -/
def chooseFromList (items : List String) (idx : Nat) : String :=
  if items.isEmpty then "" else items.getD (idx % items.length) ""

/-! ## policy.py (persona workers): the chat-reactive decision engine -/

/-- Persona configuration fields consulted by the policy engine and the
deterministic generator (`persona_cfgs` dict entries). -/
structure PersonaCfg where
  persona_id : Option String := none
  presentation_display_name : Option String := none
  safety_max_chars : Option Int := none
  anchor_catchphrases : Option (List String) := none
deriving DecidableEq

/-- Configuration derived in `PolicyEngine.__init__` from the room config
timing block and the worker settings defaults. -/
structure PolicyCfg where
  p_base : ℚ := 15 / 100
  p_mention_bonus : ℚ := 35 / 100
  p_hype_bonus : ℚ := 10 / 100
  p_rate_penalty_per_msg : ℚ := 1 / 100
  soft_cooldown_ms : Int := 1500
  hard_cooldown_ms : Option Int := none
  max_bot_msgs_per_10s : Int := 5
  max_react_age_s : ℚ := 20
  room_id : Option String := none
  bot_react_to_bot_weight : Option ℚ := none
deriving DecidableEq

/-- A firehose chat message as the decision engine reads it; `ts_ms` is
the parsed `ts` field in epoch milliseconds (`none` when absent, in which
case the code substitutes the current time). -/
structure EventMsg where
  id : Option String := none
  ts_ms : Option Int := none
  room_id : Option String := none
  origin : Option String := none
  content : Option String := none
deriving DecidableEq

/-- The decision tags dict built by `PolicyEngine.should_speak`. -/
structure Tags where
  p_used : Option ℚ
  h_value : Option ℚ
  mention_detected : Bool
  hype_detected : Bool
  rate_10s : Nat
  ts_ms : Int
  reason : Option String := none
  forced : Bool := false
  marker_present : Bool := false
  bot_react_to_bot_weight : Option ℚ := none
deriving DecidableEq

/-- View of `state.PersonaStats` as `should_speak` reads it. -/
structure PersonaStatsView where
  last_spoke_at_ms : Option Int := none
deriving DecidableEq

/-- View of `state.RoomState` sliding windows as `should_speak` reads them. -/
structure RoomStateView where
  bot_publish_times : List Int := []
  event_times : List Int := []
deriving DecidableEq

/-- Python truthiness of an optional string field. -/
def pyTruthyStr : Option String → Bool
  | none => false
  | some s => s ≠ ""

/-- Embedding of `RoomState._prune_budget`: pop entries from the front
while they are older than the window. -/
def pruneBudget (windowMs nowMs : Int) (times : List Int) : List Int :=
  times.dropWhile fun t => nowMs - t > windowMs

/-- Embedding of `RoomState.within_budget`: after pruning, the deque holds
strictly fewer than `bot_budget_limit` entries. -/
def withinBudget (limit windowMs nowMs : Int) (times : List Int) : Bool :=
  ((pruneBudget windowMs nowMs times).length : Int) < limit

/-- Embedding of `RoomState.rate_10s` (with `RoomState._prune_events`,
window fixed at 10000 ms). -/
def rate10s (nowMs : Int) (times : List Int) : Nat :=
  (times.dropWhile fun t => nowMs - t > 10000).length

/-- Embedding of `PolicyEngine._persona_display_name`: the presentation
display name when truthy, else the configured persona id, else the key. -/
def personaDisplayName (cfgs : List (String × PersonaCfg)) (personaId : String) : String :=
  let pc := (cfgs.lookup personaId).getD {}
  match pc.presentation_display_name with
  | some d => if d ≠ "" then d else pc.persona_id.getD personaId
  | none => pc.persona_id.getD personaId

/-- The E2E marker tokens tested by `should_speak` (order as in the code). -/
def E2E_MARKERS : List String := ["E2E_TEST_", "E2E_TEST_BOTLOOP_", "E2E_MARKER_"]

/-- The cooldown gate of `should_speak`: the persona spoke before and the
elapsed time is below the effective cooldown
`max(soft_cooldown_ms, hard_cooldown_ms?)`. -/
def cooldownHit (cfg : PolicyCfg) (personaStats : PersonaStatsView) (nowMs : Int) : Bool :=
  match personaStats.last_spoke_at_ms with
  | none => false
  | some last =>
    let cooldownMs :=
      match cfg.hard_cooldown_ms with
      | some hcm => max cfg.soft_cooldown_ms hcm
      | none => cfg.soft_cooldown_ms
    nowMs - last < cooldownMs

/-- The marker test of `should_speak`: any E2E token occurs in the content. -/
def markerPresent (content : String) : Bool :=
  E2E_MARKERS.any fun token => pyContains token content

/-- Embedding of `PolicyEngine._compute_threshold`. -/
def computeThreshold (cfg : PolicyCfg) (mentioned hype : Bool) (rate : Nat) : ℚ :=
  let p := cfg.p_base
  let p := if mentioned then min 1 (p + cfg.p_mention_bonus) else p
  let p := if hype then min 1 (p + cfg.p_hype_bonus) else p
  if rate > 0 then max (2 / 100) (p - cfg.p_rate_penalty_per_msg * rate) else p

/-- Embedding of `PolicyEngine.should_speak`.  `nowDtMs` is the
top-of-function `datetime.now()` (used for the age check and the tag
timestamp), `nowMs` the later `time.time()` reading (used for cooldown,
budget and rate windows).  The `record_mention` side effect does not
affect the returned decision and is not part of this value. -/
def shouldSpeak (cfg : PolicyCfg) (personaCfgs : List (String × PersonaCfg))
    (personaStats : PersonaStatsView) (room : RoomStateView)
    (personaId : String) (e : EventMsg) (nowDtMs nowMs : Int) :
    Bool × String × Tags :=
  let msgTsMs := e.ts_ms.getD nowDtMs
  let ageS : ℚ := ((nowDtMs - msgTsMs : Int) : ℚ) / 1000
  let tags : Tags := { p_used := none, h_value := none, mention_detected := false,
                       hype_detected := false, rate_10s := 0, ts_ms := msgTsMs }
  if e.origin = some "bot" then (false, "bot_origin", tags)
  else if ageS > cfg.max_react_age_s then (false, "too_old", tags)
  else if pyTruthyStr cfg.room_id ∧ ¬ (e.room_id = cfg.room_id ∨ e.room_id = none) then
    (false, "wrong_room", tags)
  else
    let content := e.content.getD ""
    if cooldownHit cfg personaStats nowMs then (false, "cooldown", tags)
    else if ¬ withinBudget cfg.max_bot_msgs_per_10s 10000 nowMs room.bot_publish_times then
      (false, "budget", tags)
    else
      if markerPresent content then
        let rate := rate10s nowMs room.event_times
        (true, "e2e_forced",
          { tags with p_used := some 1, h_value := some 0, reason := some "e2e_forced",
                      rate_10s := rate, forced := true, marker_present := true })
      else
        let displayName := personaDisplayName personaCfgs personaId
        let mentionDetected := detectMentions content displayName
        let hypeDetected := detectHypeTokens content
        let rate := rate10s nowMs room.event_times
        let hValue : ℚ :=
          match e.id with
          | some m => if m ≠ "" then deterministicHashScore (m ++ ":" ++ personaId) else 1
          | none => 1
        let pThreshold := computeThreshold cfg mentionDetected hypeDetected rate
        let tags := { tags with mention_detected := mentionDetected,
                                hype_detected := hypeDetected, rate_10s := rate,
                                p_used := some pThreshold, h_value := some hValue,
                                bot_react_to_bot_weight := cfg.bot_react_to_bot_weight }
        if hValue < pThreshold then (true, "p_pass", tags) else (false, "p_gate", tags)

/-! ## safety.py (chat gateway): sanitization and moderation -/

/-- Python slicing `l[:k]`, including the negative-index convention. -/
def pySliceTo (l : List Char) (k : Int) : List Char :=
  if k < 0 then l.take ((l.length : Int) + k).toNat else l.take k.toNat

/-- A compiled moderation pattern, abstracted by the semantics of its
`re.Pattern`: `search` is the truthiness of `compiled.search(text)` and
`sub` is `compiled.sub(replacement, text)`. -/
structure ModPattern where
  kind : String
  search : String → Bool
  sub : String → String

/-- The moderation verdict dict built by `SafetyProcessor.apply_moderation`
(the `content` key is present exactly on redaction). -/
structure Moderation where
  action : String
  reasons : List String
  content : Option String := none
deriving DecidableEq

/-- Embedding of `SafetyProcessor.sanitize_content`: CR and LF become
spaces, strip, truncate to `max_length`. -/
def sanitizeContent (maxLength : Int) (content : String) : String :=
  let s := content.data.map fun c => if c = '\r' ∨ c = '\n' then ' ' else c
  let s := pyStripList s
  if (s.length : Int) > maxLength then ⟨pySliceTo s maxLength⟩ else ⟨s⟩

/-- Embedding of `SafetyProcessor.apply_moderation`: each pattern is
searched against the already-substituted content in order; matching kinds
are recorded and all occurrences substituted.  The outer `Option` is the
`self.moderation` attribute (`none` when no moderation config is loaded). -/
def applyModeration (patterns : Option (List ModPattern)) (content : String) : Moderation :=
  match patterns with
  | none => { action := "allow", reasons := [] }
  | some ps =>
    let rm := ps.foldl
      (fun (acc : List String × String) p =>
        if p.search acc.2 then (acc.1 ++ [p.kind], p.sub acc.2) else acc)
      ([], content)
    if rm.1 ≠ [] then { action := "redact", reasons := rm.1, content := some rm.2 }
    else { action := "allow", reasons := [] }

/-- The trace dict as `SafetyProcessor._apply_trace` reads and writes it
(`processed_by := none` models an absent or non-list field; items are
modelled as already strings). -/
structure GwTrace where
  producer : Option String := none
  processed_by : Option (List String) := none
  gateway_ts : Option String := none
deriving DecidableEq

/-- A chat message as the gateway safety pipeline reads it
(`content := none` models a missing or non-string field; envelope fields
the pipeline never touches are omitted). -/
structure GwMessage where
  id : Option String := none
  room_id : Option String := none
  content : Option String := none
  moderation : Option Moderation := none
  trace : Option GwTrace := none
deriving DecidableEq

/-- Embedding of `SafetyProcessor._apply_trace`; `nowIso` stands for the
RFC3339 rendering of `datetime.now(timezone.utc)`. -/
def applyTrace (nowIso : String) (m : GwMessage) : GwMessage :=
  let trace := m.trace.getD {}
  let producer :=
    match trace.producer with
    | some p => if p = "" then some "unknown" else some p
    | none => some "unknown"
  let pb := trace.processed_by.getD []
  let pb := if "chat_gateway" ∈ pb then pb else pb ++ ["chat_gateway"]
  let gwTs := some (trace.gateway_ts.getD nowIso)
  { m with trace := some { producer := producer, processed_by := some pb, gateway_ts := gwTs } }

/-- Embedding of `SafetyProcessor.process`: drop on missing or (after
sanitization) empty content; apply moderation; the moderated content is
installed only when the action is `redact` and the moderated content is
truthy; store the moderation dict without its `content` key; enrich trace. -/
def safetyProcess (maxLength : Int) (patterns : Option (List ModPattern))
    (nowIso : String) (msg : GwMessage) : Option GwMessage :=
  match msg.content with
  | none => none
  | some content =>
    let sanitized := sanitizeContent maxLength content
    if sanitized = "" then none
    else
      let moderation := applyModeration patterns sanitized
      let sanitized :=
        match moderation.content with
        | some mc => if moderation.action = "redact" ∧ mc ≠ "" then mc else sanitized
        | none => sanitized
      some (applyTrace nowIso
        { msg with content := some sanitized,
                   moderation := some { moderation with content := none } })

/-! ## ws_server.py (chat gateway): the bounded broadcast queue -/

/-- An `asyncio.Queue(maxsize)` holding broadcast items. -/
structure BroadcastQueue (α : Type) where
  maxsize : Int
  items : List α := []

/-- Embedding of `asyncio.Queue.full()`: a queue with `maxsize <= 0` is
never full. -/
def queueFull {α : Type} (q : BroadcastQueue α) : Bool :=
  0 < q.maxsize ∧ q.maxsize ≤ (q.items.length : Int)

/-- Embedding of `WebSocketManager.enqueue_broadcast`: `put_nowait` appends
and returns `true`, except on a full queue where `QueueFull` is caught and
`false` returned with the queue untouched. -/
def enqueueBroadcast {α : Type} (q : BroadcastQueue α) (x : α) : Bool × BroadcastQueue α :=
  if queueFull q then (false, q) else (true, { q with items := q.items ++ [x] })

/-- Embedding of the broadcast worker dequeue (`await queue.get()`); on an
empty queue the worker blocks, modelled as leaving the state unchanged. -/
def queueGet {α : Type} (q : BroadcastQueue α) : BroadcastQueue α :=
  { q with items := q.items.tail }

/-- The operations that touch the broadcast queue. -/
inductive QueueOp (α : Type) where
  | enq (x : α)
  | deq

/-- Run of a sequence of queue operations from a given queue state. -/
def runQueueOps {α : Type} (q : BroadcastQueue α) : List (QueueOp α) → BroadcastQueue α
  | [] => q
  | QueueOp.enq x :: ops => runQueueOps (enqueueBroadcast q x).2 ops
  | QueueOp.deq :: ops => runQueueOps (queueGet q) ops

/-! ## stream_perceptor/src/main.py: frame processing -/

/-- A frame payload as `_process_frame` reads it; `ts_ms` is the parsed
timestamp (`_parse_ts_ms(frame.get("ts")) or 0`). -/
structure Frame where
  id : Option String := none
  room_id : Option String := none
  ts_ms : Int := 0
  frame_path : Option String := none
  sha256 : Option String := none
deriving DecidableEq

/-- The perceiver counters touched by frame handling. -/
structure PerceiverStats where
  processed_frames : Nat := 0
  schema_failures : Nat := 0
  file_missing : Nat := 0
  sha_mismatch : Nat := 0
deriving DecidableEq

/-- Embedding of `StreamPerceptor._process_frame` up to the content-hash
gate.  File-system and LLM effects are abstracted: `fileExists` is
`resolved.exists()`, `actualSha` is `_sha256_file(resolved)`, and
`downstream` is the whole transcript-join / LLM-call / validation /
`xadd` continuation, returning updated stats and the list of observations
appended to the observations stream. -/
def processFrame (frame : Frame) (fileExists : Bool) (actualSha : String)
    (downstream : PerceiverStats → PerceiverStats × List String)
    (stats : PerceiverStats) : PerceiverStats × List String :=
  if ¬ pyTruthyStr frame.room_id then (stats, [])
  else
    match frame.frame_path with
    | none => ({ stats with schema_failures := stats.schema_failures + 1 }, [])
    | some fp =>
      if pyStrip fp = "" then ({ stats with schema_failures := stats.schema_failures + 1 }, [])
      else if ¬ fileExists then ({ stats with file_missing := stats.file_missing + 1 }, [])
      else
        match frame.sha256 with
        | none => ({ stats with schema_failures := stats.schema_failures + 1 }, [])
        | some expected =>
          if expected = "" then ({ stats with schema_failures := stats.schema_failures + 1 }, [])
          else if pyLower actualSha ≠ pyLower expected then
            ({ stats with sha_mismatch := stats.sha_mismatch + 1 }, [])
          else downstream stats

/-- Result of handling one frame-stream entry. -/
structure HandleResult where
  stats : PerceiverStats
  emitted : List String
  acked : Bool
deriving DecidableEq

/-- Embedding of the frame branch of `StreamPerceptor._handle_message`:
count the frame, validate (abstracted as `frameValid`; a failure raises
into the `except` arm incrementing `schema_failures`), process, and ack in
the `finally` path regardless of outcome. -/
def handleFrameMessage (frame : Frame) (frameValid fileExists : Bool) (actualSha : String)
    (downstream : PerceiverStats → PerceiverStats × List String)
    (stats : PerceiverStats) : HandleResult :=
  let stats := { stats with processed_frames := stats.processed_frames + 1 }
  if ¬ frameValid then
    { stats := { stats with schema_failures := stats.schema_failures + 1 },
      emitted := [], acked := true }
  else
    let r := processFrame frame fileExists actualSha downstream stats
    { stats := r.1, emitted := r.2, acked := true }

/-! ## hash_utils.py (llm_runtime): canonical prompt hashing -/

/-- Embedding of `raw.replace("\r\n", "\n")`: the single left-to-right
pass replacing non-overlapping CRLF pairs. -/
def replaceCrLfWithLf : List Char → List Char
  | [] => []
  | [c] => [c]
  | c1 :: c2 :: rest =>
    if c1 = '\r' ∧ c2 = '\n' then '\n' :: replaceCrLfWithLf rest
    else c1 :: replaceCrLfWithLf (c2 :: rest)

/-- Embedding of `text.replace("\r", "\n")`. -/
def replaceCrWithLf (l : List Char) : List Char :=
  l.map fun c => if c = '\r' then '\n' else c

/-- Embedding of `text.rstrip("\n")`. -/
def rstripLf (l : List Char) : List Char :=
  (l.reverse.dropWhile (fun c => c = '\n')).reverse

/-- Embedding of `hash_utils.canonical_prompt_text` as a function of the
raw file text (the `path.read_text` I/O is abstracted away): normalize
CRLF then CR to LF and enforce exactly one trailing LF. -/
def canonicalPromptText (raw : String) : String :=
  ⟨rstripLf (replaceCrWithLf (replaceCrLfWithLf raw.data)) ++ ['\n']⟩

/-- Embedding of `hash_utils.canonical_prompt_sha256` as a function of the
raw file text. -/
def canonicalPromptSha256 (raw : String) : String :=
  sha256HexOfString (canonicalPromptText raw)

/-- Specification-side transformation for C8: switch every LF of a file
to CRLF (the newline-convention change the claim quantifies over). -/
def lfToCrlf : List Char → List Char
  | [] => []
  | c :: rest =>
    if c = '\n' then '\r' :: '\n' :: lfToCrlf rest
    else c :: lfToCrlf rest

/-! ## generator.py (persona workers): the deterministic reply generator -/

/-- Room configuration fields consulted by the deterministic generator. -/
structure RoomCfg where
  emote_policy_allowed_emotes : Option (List String) := none
deriving DecidableEq

/-- The fixed emote fallback list `generator.DEFAULT_EMOTES`. -/
def DEFAULT_EMOTES : List String := ["Kappa", "PogChamp", "FeelsOkayMan", "OMEGALUL"]

/-- The fixed template families `generator.TEMPLATE_FAMILIES`. -/
def TEMPLATE_FAMILIES : List (List String) :=
  [["lol", "true", "nah", "W", "L", "real"],
   ["POGGERS", "W PLAY", "HYPE", "LET\x27S GO"],
   ["nice", "solid", "clean", "ok then"],
   ["what happened?", "for real?", "actually?"]]

/-- Embedding of `generator._deterministic_index`. -/
def deterministicIndex (seed : String) (modulo : Nat) : Nat :=
  bytesToNatBE (blake2b 8 (utf8Encode seed)) % modulo

/-- Embedding of `generator._extract_marker` (tokens tried in this order). -/
def extractMarker (content : String) : String :=
  if pyContains "E2E_TEST_BOTLOOP_" content then "E2E_TEST_BOTLOOP_"
  else if pyContains "E2E_TEST_" content then "E2E_TEST_"
  else if pyContains "E2E_MARKER_" content then "E2E_MARKER_"
  else ""

/-- Embedding of `generator._sanitize_echo`: drop punctuation, keep the
first three whitespace-separated words. -/
def sanitizeEcho (content : String) : String :=
  let words := pySplitWs ⟨replaceNonWordSpace content.data⟩
  if words.isEmpty then "" else String.intercalate " " (words.take 3)

/-- Embedding of `generator._maybe_add_emote`: a deterministic flip decides
whether to append a deterministically chosen allowed emote. -/
def maybeAddEmote (base : String) (personaId eventId : String) (roomCfg : RoomCfg)
    (maxChars : Int) : String :=
  let emoteList :=
    match roomCfg.emote_policy_allowed_emotes with
    | some l => if l ≠ [] then l else DEFAULT_EMOTES
    | none => DEFAULT_EMOTES
  let idxSeed := eventId ++ ":" ++ personaId ++ ":emote"
  let emoteIdx := deterministicIndex idxSeed emoteList.length
  let includeEmote := deterministicIndex (idxSeed ++ ":flip") 2 == 0
  if includeEmote then pyTruncate (pyStrip (base ++ " " ++ emoteList.getD emoteIdx "")) maxChars
  else base

/-- Embedding of `DeterministicReplyGenerator.generate_reply`.  The
signature mirrors the Python one: `state`, `memoryContext`,
`observationContext`, `observationSummary`, `promptId` and `promptPurpose`
are accepted exactly as in the source, where the body never reads them.
The reply template suffix reproduces the literal characters present in the
source file. -/
def generateReply {σ : Type} (personaCfg : PersonaCfg) (roomCfg : RoomCfg)
    (eventMsg : EventMsg) (state : σ) (tags : Tags)
    (memoryContext observationContext observationSummary promptId promptPurpose :
      Option String := none) : String :=
  let personaId := personaCfg.persona_id.getD "persona"
  let content := eventMsg.content.getD ""
  let maxChars := personaCfg.safety_max_chars.getD 200
  let marker := extractMarker content
  let reason := tags.reason
  let eventId := eventMsg.id.getD "evt"
  let reply :=
    if reason = some "e2e_forced" ∨ marker ≠ "" then
      let token := if marker ≠ "" then marker else "E2E_MARKER_"
      "got it: " ++ token ++ " âœ…"
    else
      let tplSeed := eventId ++ ":" ++ personaId ++ ":tpl"
      let tplFamilyIdx := deterministicIndex tplSeed (TEMPLATE_FAMILIES.length + 1)
      let templates := TEMPLATE_FAMILIES.getD (tplFamilyIdx % TEMPLATE_FAMILIES.length) []
      let replySeedIdx := deterministicIndex (tplSeed ++ ":choice") templates.length
      let baseReply := chooseFromList templates replySeedIdx
      let baseReply :=
        if tplFamilyIdx == 2 then
          let echo := sanitizeEcho content
          if echo ≠ "" then pyStrip (echo ++ " " ++ baseReply) else baseReply
        else if tplFamilyIdx == 3 then
          let catchphrases := personaCfg.anchor_catchphrases.getD []
          if catchphrases ≠ [] then chooseFromList catchphrases replySeedIdx else baseReply
        else baseReply
      maybeAddEmote baseReply personaId eventId roomCfg maxChars
  let reply := stripMentions reply
  let reply := sanitizeText reply
  let reply := pyTruncate reply maxChars
  if reply = "" then "ok" else reply

/-! ## auto_commentary_engine.py (persona workers) -/

/-- Interest score weights (`auto_commentary.InterestWeights`). -/
structure InterestWeights where
  hype : ℚ
  mentions : ℚ
  entities : ℚ
  tag_hype : ℚ
deriving DecidableEq

/-- Summary dedupe configuration (`auto_commentary.SummaryDedupeConfig`). -/
structure SummaryDedupeCfg where
  enabled : Bool
  ttl_ms : Int
  normalize : Bool
deriving DecidableEq

/-- Auto-commentary configuration fields read by the engine
(`auto_commentary.AutoCommentaryConfig`; `trigger_tags` is already
normalized by the loader). -/
structure AutoCfg where
  hype_threshold : ℚ
  trigger_tags : List String
  trigger_on_entities : Bool
  room_rate_limit_ms : Int
  max_messages_per_observation : Int
  dedupe_window_ms : Int
  momentum_window_ms : Int
  momentum_max_msgs : Int
  momentum_min_interval_ms : Int
  interest_weights : InterestWeights
  summary_dedupe : SummaryDedupeCfg
deriving DecidableEq

/-- A stream observation as the auto-commentary engine reads it
(`none` models absent fields, and for `tags`/`entities`/`hype_level` also
non-list / non-numeric values). -/
structure Observation where
  id : Option String := none
  room_id : Option String := none
  summary : Option String := none
  tags : Option (List String) := none
  entities : Option (List String) := none
  hype_level : Option ℚ := none
deriving DecidableEq

/-- Embedding of `auto_commentary_engine._normalize_tokens` (items are
modelled as already strings): strip, lower-case, drop empties and
duplicates keeping first occurrences. -/
def normalizeTokens (items : List String) : List String :=
  items.foldl
    (fun acc item =>
      let cleaned := pyLower (pyStrip item)
      if cleaned = "" ∨ cleaned ∈ acc then acc else acc ++ [cleaned])
    []

/-- Embedding of `auto_commentary_engine._normalize_summary`. -/
def normalizeSummary (text : String) (normalize : Bool) : String :=
  let cleaned := pyStrip text
  if cleaned = "" then ""
  else
    let cleaned := if normalize then ⟨replaceNonWordSpace (pyLower cleaned).data⟩ else cleaned
    pyStrip ⟨collapseWsGo cleaned.data⟩

/-- Embedding of `auto_commentary_engine.compute_summary_hash`. -/
def computeSummaryHash (obs : Observation) (cfg : AutoCfg) : String :=
  let summary := obs.summary.getD ""
  let normalized := normalizeSummary summary cfg.summary_dedupe.normalize
  if normalized = "" then "" else sha256HexOfString normalized

/-- Embedding of `auto_commentary_engine.compute_interest_score`. -/
def computeInterestScore (obs : Observation) (cfg : AutoCfg) : ℚ :=
  let hypeValue := obs.hype_level.getD 0
  let hypeValue := max 0 (min 1 hypeValue)
  let tags := normalizeTokens (obs.tags.getD [])
  let entities := normalizeTokens (obs.entities.getD [])
  let score := hypeValue * cfg.interest_weights.hype
  let score := if entities ≠ [] then score + cfg.interest_weights.mentions else score
  let entityFactor : ℚ := if entities ≠ [] then (min entities.length 3 : ℚ) / 3 else 0
  let score := score + entityFactor * cfg.interest_weights.entities
  if "hype" ∈ tags then score + cfg.interest_weights.tag_hype else score

/-- Embedding of `auto_commentary_engine._is_interesting`. -/
def isInteresting (obs : Observation) (cfg : AutoCfg) (score : ℚ) : Bool × String :=
  let hypeValue := obs.hype_level.getD 0
  if hypeValue ≥ cfg.hype_threshold then (true, "hype")
  else
    let tags := normalizeTokens (obs.tags.getD [])
    if tags ≠ [] ∧ cfg.trigger_tags ≠ [] ∧ tags.any (fun t => t ∈ cfg.trigger_tags) then
      (true, "tag")
    else if cfg.trigger_on_entities ∧ (obs.entities.getD []).any (fun e => pyStrip e ≠ "") then
      (true, "entities")
    else if score ≥ cfg.hype_threshold then (true, "score")
    else (false, "not_interesting")

/-- Runtime auto-commentary state.  `auto_room_last_spoke` and
`auto_observation_counts` come from `state.State`; `auto_summary_seen` and
`auto_momentum_times` back the two state methods that are absent from the
sources under review (see the next two definitions). -/
structure AutoState where
  auto_room_last_spoke : List (String × Int) := []
  auto_observation_counts : List (String × (Int × Nat)) := []
  auto_summary_seen : List (String × Int) := []
  auto_momentum_times : List (String × List Int) := []
deriving DecidableEq

/-- Embedding of `State.auto_room_ready`. -/
def autoRoomReady (s : AutoState) (roomId : String) (nowMs rateLimitMs : Int) : Bool :=
  if rateLimitMs ≤ 0 then true
  else
    match s.auto_room_last_spoke.lookup roomId with
    | none => true
    | some last => nowMs - last ≥ rateLimitMs

/-- Embedding of `State._prune_auto_observation_counts`: clear on a
non-positive window, else pop stale entries from the front. -/
def pruneAutoObservationCounts (nowMs windowMs : Int)
    (l : List (String × (Int × Nat))) : List (String × (Int × Nat)) :=
  if windowMs ≤ 0 then [] else l.dropWhile fun e => nowMs - e.2.1 > windowMs

/-- Embedding of `State.auto_observation_count` (prunes, then reads the
per-observation counter). -/
def autoObservationCount (s : AutoState) (obsId : String) (nowMs windowMs : Int) :
    Nat × AutoState :=
  let pruned := pruneAutoObservationCounts nowMs windowMs s.auto_observation_counts
  ((match pruned.lookup obsId with | some e => e.2 | none => 0),
   { s with auto_observation_counts := pruned })

/-- Modelled from the spec: `State.auto_room_momentum_ready` is code of this
repository absent from the sources under review (only its caller
`auto_commentary_engine.should_emit` is present).  Per spec section 4.5 gate 2,
within `momentum_window_ms` the room's auto-commentary messages must satisfy
both a maximum count and a minimum inter-message interval, with first-match
reasons `momentum_rate` and `momentum_interval`. -/
def autoRoomMomentumReady (s : AutoState) (roomId : String)
    (nowMs windowMs maxMsgs minIntervalMs : Int) : Bool × String :=
  let times := (s.auto_momentum_times.lookup roomId).getD []
  let recent := times.filter fun t => decide (nowMs - t ≤ windowMs)
  if (recent.length : Int) ≥ maxMsgs then (false, "momentum_rate")
  else
    match recent.getLast? with
    | some last => if nowMs - last < minIntervalMs then (false, "momentum_interval") else (true, "ok")
    | none => (true, "ok")

/-- Modelled from the spec: `State.auto_summary_seen_before` is code of this
repository absent from the sources under review (only its caller is present).
Per spec section 4.5 gate 5, a summary hash seen within `ttl_ms` yields
`summary_dedupe`; following the sibling `State.auto_seen_before`, entries
older than the TTL are pruned from the front, a present key reports seen,
and an absent key is recorded with the current time. -/
def autoSummarySeenBefore (s : AutoState) (hash : String) (nowMs ttlMs : Int) :
    Bool × AutoState :=
  let pruned :=
    if ttlMs ≤ 0 then []
    else s.auto_summary_seen.dropWhile fun e => nowMs - e.2 > ttlMs
  match pruned.lookup hash with
  | some _ => (true, { s with auto_summary_seen := pruned })
  | none => (false, { s with auto_summary_seen := pruned ++ [(hash, nowMs)] })

/-- Embedding of `auto_commentary_engine.should_emit`, with explicit state
passing for the `State` mutations performed by the gates. -/
def shouldEmit (obs : Observation) (s : AutoState) (cfg : AutoCfg) (nowMs : Int) :
    (Bool × String × ℚ) × AutoState :=
  let score := computeInterestScore obs cfg
  let ir := isInteresting obs cfg score
  if ¬ ir.1 then ((false, "not_interesting", score), s)
  else
    let roomId := obs.room_id.getD ""
    let mm := autoRoomMomentumReady s roomId nowMs cfg.momentum_window_ms
      cfg.momentum_max_msgs cfg.momentum_min_interval_ms
    if ¬ mm.1 then ((false, mm.2, score), s)
    else if ¬ autoRoomReady s roomId nowMs cfg.room_rate_limit_ms then
      ((false, "room_rate", score), s)
    else
      let obsId := obs.id.getD ""
      let cntGate :=
        if cfg.max_messages_per_observation > 0 ∧ obsId ≠ "" then
          let r := autoObservationCount s obsId nowMs cfg.dedupe_window_ms
          (r.2, decide ((r.1 : Int) ≥ cfg.max_messages_per_observation))
        else (s, false)
      let s := cntGate.1
      if cntGate.2 then ((false, "max_per_observation", score), s)
      else if cfg.summary_dedupe.enabled then
        let summaryHash := computeSummaryHash obs cfg
        if summaryHash ≠ "" then
          let r := autoSummarySeenBefore s summaryHash nowMs cfg.summary_dedupe.ttl_ms
          if r.1 then ((false, "summary_dedupe", score), r.2)
          else ((true, "ok", score), r.2)
        else ((true, "ok", score), s)
      else ((true, "ok", score), s)

/-! ## The room bot-publish budget as a transition system (C3)

One room of the persona worker.  `deque` is `RoomState.bot_publish_times`;
`hist` records every successful bot publish for the room; `clock` is the
latest wall-clock reading (`time.time()` is assumed monotone across the
sequential message handling of `PersonaWorkerService._handle_message`).
A publish step mirrors `should_speak` checking `within_budget` at `t1` and
`_handle_message` calling `record_publish` (append then prune) at the later
reading `t2` only after a successful append; all other gates of
`should_speak` may veto a publish, which the relation models by simply not
taking the publish step. -/
structure BudgetSys where
  clock : Int := 0
  deque : List Int := []
  hist : List Int := []

/-- One processing step of the worker, as it affects the budget window. -/
inductive BudgetStep (limit : Int) : BudgetSys → BudgetSys → Prop
  | publish (s : BudgetSys) (t1 t2 : Int) (h1 : s.clock ≤ t1) (h2 : t1 ≤ t2)
      (hok : withinBudget limit 10000 t1 s.deque = true) :
      BudgetStep limit s
        { clock := t2,
          deque := pruneBudget 10000 t2 (pruneBudget 10000 t1 s.deque ++ [t2]),
          hist := s.hist ++ [t2] }
  | declined (s : BudgetSys) (t1 : Int) (h1 : s.clock ≤ t1) :
      BudgetStep limit s
        { clock := t1, deque := pruneBudget 10000 t1 s.deque, hist := s.hist }
  | idle (s : BudgetSys) (t1 : Int) (h1 : s.clock ≤ t1) :
      BudgetStep limit s { clock := t1, deque := s.deque, hist := s.hist }

/-- States reachable from the initial empty room state. -/
inductive BudgetReachable (limit : Int) : BudgetSys → Prop
  | init : BudgetReachable limit {}
  | step {s s2 : BudgetSys} :
      BudgetReachable limit s → BudgetStep limit s s2 → BudgetReachable limit s2

/-- Count of publishes inside the closed sliding window `[T, T + 10000]`. -/
def windowCount (hist : List Int) (T : Int) : Nat :=
  (hist.filter fun t => decide (T ≤ t ∧ t ≤ T + 10000)).length

/-- Passage of the five hard gates of `should_speak` (bot origin, age,
room, cooldown, budget), phrased on the same source definitions the
function evaluates. -/
def passesHardGates (cfg : PolicyCfg) (personaStats : PersonaStatsView)
    (room : RoomStateView) (e : EventMsg) (nowDtMs nowMs : Int) : Prop :=
  ¬ (e.origin = some "bot") ∧
  ((nowDtMs - e.ts_ms.getD nowDtMs : Int) : ℚ) / 1000 ≤ cfg.max_react_age_s ∧
  ¬ (pyTruthyStr cfg.room_id = true ∧ ¬ (e.room_id = cfg.room_id ∨ e.room_id = none)) ∧
  cooldownHit cfg personaStats nowMs = false ∧
  withinBudget cfg.max_bot_msgs_per_10s 10000 nowMs room.bot_publish_times = true

instance (cfg : PolicyCfg) (personaStats : PersonaStatsView) (room : RoomStateView)
    (e : EventMsg) (nowDtMs nowMs : Int) :
    Decidable (passesHardGates cfg personaStats room e nowDtMs nowMs) := by
  unfold passesHardGates
  infer_instance

/-- Hand-compiled matcher of the moderation regex `\d{3}-\d{3}-\d{4}` at
the head of a character list, returning the remainder on a match. -/
def phoneMatchHead : List Char → Option (List Char)
  | a :: b :: c :: '-' :: d :: e :: f :: '-' :: g :: h :: i :: j :: rest =>
    if a.isDigit ∧ b.isDigit ∧ c.isDigit ∧ d.isDigit ∧ e.isDigit ∧ f.isDigit ∧
       g.isDigit ∧ h.isDigit ∧ i.isDigit ∧ j.isDigit then some rest else none
  | _ => none

/-- Search semantics of the compiled regex: a match at some position. -/
def phoneSearchGo : List Char → Bool
  | [] => false
  | c :: rest => (phoneMatchHead (c :: rest)).isSome || phoneSearchGo rest

/-- Substitution semantics of the compiled regex with replacement `""`:
leftmost non-overlapping matches removed. -/
def phoneSubGo : Nat → List Char → List Char
  | 0, l => l
  | Nat.succ _, [] => []
  | Nat.succ fuel, c :: rest =>
    match phoneMatchHead (c :: rest) with
    | some remainder => phoneSubGo fuel remainder
    | none => c :: phoneSubGo fuel rest

/-- The moderation pattern
`{kind: "phone", regex: "\d{3}-\d{3}-\d{4}", replacement: ""}` with its
compiled search and substitution semantics. -/
def phonePattern : ModPattern :=
  { kind := "phone",
    search := fun s => phoneSearchGo s.data,
    sub := fun s => ⟨phoneSubGo s.data.length s.data⟩ }

/-- Inductive invariant of the budget transition system: the publish
history is chronological and bounded by the clock, the deque is the
up-to-cutoff suffix of the history, and every closed 10-second window
holds at most `limit` publishes. -/
def BudgetInv (limit : Int) (s : BudgetSys) : Prop :=
  s.hist.Sorted (· ≤ ·) ∧ (∀ t ∈ s.hist, t ≤ s.clock) ∧
  (∃ cut : Int, cut ≤ s.clock - 10000 ∧
    s.deque = s.hist.filter fun t => decide (cut ≤ t)) ∧
  ∀ T : Int, (windowCount s.hist T : Int) ≤ limit

/-! # Claim theorems -/

/-- C1: the claim states that when moderation substitutions empty the
sanitized content, `SafetyProcessor.process` returns no message and the
message is dropped.  The code does the opposite: because
`moderation.get("content")` is falsy for the empty string, `process` keeps
the PRE-moderation sanitized content and returns the message (tagged
`action = "redact"` but with the original content intact), so it is
broadcast and appended to the firehose.  This theorem evaluates the
embedded pipeline at the failing input `"555-123-4567"` with a phone
pattern whose replacement is empty. -/
theorem C1_empty_redaction_keeps_message :
    applyModeration (some [phonePattern]) "555-123-4567" =
      { action := "redact", reasons := ["phone"], content := some "" } ∧
    safetyProcess 200 (some [phonePattern]) "2026-01-01T00:00:00+00:00"
        { id := some "m1", room_id := some "room:demo", content := some "555-123-4567" } =
      some { id := some "m1", room_id := some "room:demo",
             content := some "555-123-4567",
             moderation := some { action := "redact", reasons := ["phone"] },
             trace := some { producer := some "unknown",
                             processed_by := some ["chat_gateway"],
                             gateway_ts := some "2026-01-01T00:00:00+00:00" } } := by
  decide

/-- C4: for every frame whose recomputed file SHA-256 differs
case-insensitively from the frame's `sha256` field (all earlier gates
passing), handling the entry emits no observation, increments the
`sha_mismatch` counter by exactly one, and still acks the source entry —
universally over whatever the downstream LLM pipeline would have done. -/
theorem C4_sha_mismatch_no_observation
    (frame : Frame) (frameValid fileExists : Bool) (actualSha expected : String)
    (downstream : PerceiverStats → PerceiverStats × List String) (stats : PerceiverStats)
    (hroom : pyTruthyStr frame.room_id = true)
    (hpath : ∃ fp, frame.frame_path = some fp ∧ pyStrip fp ≠ "")
    (hvalid : frameValid = true) (hexists : fileExists = true)
    (hsha : frame.sha256 = some expected) (hne : expected ≠ "")
    (hmismatch : pyLower actualSha ≠ pyLower expected) :
    handleFrameMessage frame frameValid fileExists actualSha downstream stats =
      { stats := { stats with processed_frames := stats.processed_frames + 1,
                              sha_mismatch := stats.sha_mismatch + 1 },
        emitted := [], acked := true } := by
  obtain ⟨fp, hfp, hfpne⟩ := hpath
  subst hvalid hexists
  simp [handleFrameMessage, processFrame, hroom, hfp, hfpne, hsha, hne, hmismatch]

/-- Witness for C4 at a concrete frame and hash pair. -/
theorem C4_sha_mismatch_no_observation_witness :
    handleFrameMessage
        { id := some "f1", room_id := some "room:demo", ts_ms := 0,
          frame_path := some "frames/f1.png", sha256 := some "AABB" }
        true true "aacc" (fun st => (st, ["obs"])) {} =
      { stats := { processed_frames := 1, sha_mismatch := 1 }, emitted := [], acked := true } :=
  C4_sha_mismatch_no_observation _ _ _ _ "AABB" _ _ (by decide)
    ⟨"frames/f1.png", rfl, by decide⟩ rfl rfl rfl (by decide) (by decide)

/-- Helper: enqueueing never changes the queue capacity. -/
theorem enqueueBroadcast_snd_maxsize {α : Type} (q : BroadcastQueue α) (x : α) :
    ((enqueueBroadcast q x).2).maxsize = q.maxsize := by
  unfold enqueueBroadcast
  split <;> rfl

/-- Helper: enqueueing preserves the length bound on a bounded queue. -/
theorem enqueueBroadcast_snd_length {α : Type} (q : BroadcastQueue α) (x : α)
    (hm : 0 < q.maxsize) (hlen : (q.items.length : Int) ≤ q.maxsize) :
    (((enqueueBroadcast q x).2).items.length : Int) ≤ q.maxsize := by
  unfold enqueueBroadcast
  by_cases h : queueFull q = true
  · simpa [h] using hlen
  · have hnot : ¬ (0 < q.maxsize ∧ q.maxsize ≤ (q.items.length : Int)) := by
      simpa [queueFull] using h
    have hlt : (q.items.length : Int) < q.maxsize := by
      rcases Classical.em (q.maxsize ≤ (q.items.length : Int)) with hc | hc
      · exact absurd ⟨hm, hc⟩ hnot
      · omega
    simp only [h, Bool.false_eq_true, if_false, List.length_append, List.length_cons,
      List.length_nil]
    push_cast
    omega

/-- C5: `enqueue_broadcast` on a queue holding fewer than
`broadcast_queue_size` items appends the pair and returns true; on a full
queue it leaves the queue unchanged and returns false without blocking;
consequently, over any sequence of enqueue and worker-dequeue operations,
the queue length never exceeds `broadcast_queue_size`. -/
theorem C5_enqueue_broadcast_nonblocking :
    (∀ (α : Type) (q : BroadcastQueue α) (x : α), 0 < q.maxsize →
      (((q.items.length : Int) < q.maxsize →
          enqueueBroadcast q x = (true, { q with items := q.items ++ [x] })) ∧
       (q.maxsize ≤ (q.items.length : Int) →
          enqueueBroadcast q x = (false, q)))) ∧
    (∀ (α : Type) (maxsize : Int) (ops : List (QueueOp α)), 0 < maxsize →
      (((runQueueOps { maxsize := maxsize } ops).items.length : Int) ≤ maxsize)) := by
  constructor
  · intro α q x hm
    constructor
    · intro hlt
      have hfull : queueFull q = false := by
        simp only [queueFull]
        simp only [decide_eq_false_iff_not]
        intro hc
        omega
      simp [enqueueBroadcast, hfull]
    · intro hge
      have hfull : queueFull q = true := by
        simp only [queueFull]
        exact decide_eq_true ⟨hm, hge⟩
      simp [enqueueBroadcast, hfull]
  · intro α maxsize ops hm
    have aux : ∀ (ops : List (QueueOp α)) (q : BroadcastQueue α),
        q.maxsize = maxsize → (q.items.length : Int) ≤ maxsize →
        ((runQueueOps q ops).items.length : Int) ≤ maxsize := by
      intro ops
      induction ops with
      | nil => intro q hqm hlen; simpa [runQueueOps] using hlen
      | cons op rest ih =>
        intro q hqm hlen
        cases op with
        | enq x =>
          simp only [runQueueOps]
          refine ih _ (by rw [enqueueBroadcast_snd_maxsize]; exact hqm) ?_
          have := enqueueBroadcast_snd_length q x (by omega) (by omega)
          omega
        | deq =>
          simp only [runQueueOps]
          refine ih _ (by simp [queueGet, hqm]) ?_
          have h1 : q.items.tail.length ≤ q.items.length := by
            cases q.items <;> simp [Nat.le_succ]
          have h2 : ((queueGet q).items.length : Int) = (q.items.tail.length : Int) := by
            simp [queueGet]
          rw [h2]
          have h3 : (q.items.tail.length : Int) ≤ (q.items.length : Int) := by
            exact_mod_cast h1
          omega
    refine aux ops { maxsize := maxsize } rfl ?_
    simp only [List.length_nil, Int.natCast_zero]
    omega

/-- Witness for C5 at a concrete queue, item and operation sequence. -/
theorem C5_enqueue_broadcast_nonblocking_witness :
    (0 < (2 : Int)) ∧
    enqueueBroadcast (α := Nat) { maxsize := 2, items := [7] } 9 =
      (true, { maxsize := 2, items := [7, 9] }) ∧
    ((runQueueOps (α := Nat) { maxsize := 2 }
        [QueueOp.enq 1, QueueOp.enq 2, QueueOp.enq 3, QueueOp.deq, QueueOp.enq 4]).items.length
      : Int) ≤ 2 :=
  ⟨by decide,
   by
     have h := (C5_enqueue_broadcast_nonblocking.1 Nat { maxsize := 2, items := [7] } 9
       (by decide)).1 (by decide)
     simpa using h,
   C5_enqueue_broadcast_nonblocking.2 Nat 2 _ (by decide)⟩

/-- C7: the claim states the deterministic generator is a pure function of
`(event_id, persona_id, room_cfg, content, tags)`.  It is not: the body
also reads `persona_cfg["safety"]["max_chars"]` (truncation) and
`persona_cfg["anchor"]["catchphrases"]` (template family 3), so two calls
agreeing on all five listed inputs but differing in the persona config
produce different replies.  Here both configs carry `persona_id = "p"`
while `max_chars` is 200 versus 1, and the same event, room config and
tags yield different reply strings. -/
theorem C7_counterexample_persona_cfg_matters :
    ({ persona_id := some "p", safety_max_chars := some 200 } : PersonaCfg).persona_id =
      ({ persona_id := some "p", safety_max_chars := some 1 } : PersonaCfg).persona_id ∧
    generateReply { persona_id := some "p", safety_max_chars := some 200 } {}
        { id := some "e1", content := some "E2E_TEST_ hi" } ()
        { p_used := none, h_value := none, mention_detected := false, hype_detected := false,
          rate_10s := 0, ts_ms := 0, reason := some "e2e_forced" } ≠
      generateReply { persona_id := some "p", safety_max_chars := some 1 } {}
        { id := some "e1", content := some "E2E_TEST_ hi" } ()
        { p_used := none, h_value := none, mention_detected := false, hype_detected := false,
          rate_10s := 0, ts_ms := 0, reason := some "e2e_forced" } := by
  decide

/-- C7 (amended): the deterministic generator is a pure function of the
event message's id and content, the persona config, the room config, and
the tags dict's `reason` entry; in particular it ignores the `state`,
`memory_context`, `observation_context`, `observation_summary`,
`prompt_id` and `prompt_purpose` arguments and every other event field. -/
theorem C7_amended_generator_pure
    {σ₁ σ₂ : Type} (pc : PersonaCfg) (rc : RoomCfg) (e1 e2 : EventMsg)
    (s1 : σ₁) (s2 : σ₂) (t1 t2 : Tags)
    (mc1 oc1 os1 pid1 pp1 mc2 oc2 os2 pid2 pp2 : Option String)
    (hid : e1.id = e2.id) (hcontent : e1.content = e2.content)
    (hreason : t1.reason = t2.reason) :
    generateReply pc rc e1 s1 t1 mc1 oc1 os1 pid1 pp1 =
      generateReply pc rc e2 s2 t2 mc2 oc2 os2 pid2 pp2 := by
  simp only [generateReply, hid, hcontent, hreason]

/-- Witness for the amended C7 at two concrete calls that agree only on
the inputs the amended claim lists. -/
theorem C7_amended_generator_pure_witness :
    generateReply { persona_id := some "p1" } {}
        { id := some "e9", room_id := some "room:a", origin := some "human",
          content := some "hello there" } (3 : Nat)
        { p_used := some 1, h_value := none, mention_detected := true,
          hype_detected := false, rate_10s := 4, ts_ms := 11, reason := some "p_pass" }
        (some "mem") none none none none =
      generateReply { persona_id := some "p1" } {}
        { id := some "e9", room_id := some "room:b", origin := some "bot",
          content := some "hello there" } ("other state" : String)
        { p_used := none, h_value := some 0, mention_detected := false,
          hype_detected := true, rate_10s := 0, ts_ms := 0, reason := some "p_pass" }
        none (some "obs") (some "sum") (some "pid") (some "purpose") :=
  C7_amended_generator_pure _ _ _ _ _ _ _ _ _ _ _ _ _ _ _ _ _ _ rfl rfl rfl

/-- C10: the hype token set contains the single letter `W` and detection is
a substring match against the upper-cased content, so every content
containing `w` or `W` anywhere counts as hype, and the threshold is then
computed with the hype branch taken. -/
theorem C10_hype_detection_overtriggers_on_w (content : String)
    (h : 'w' ∈ content.data ∨ 'W' ∈ content.data) :
    detectHypeTokens content = true ∧
    ∀ (cfg : PolicyCfg) (mentioned : Bool) (rate : Nat),
      computeThreshold cfg mentioned (detectHypeTokens content) rate =
        computeThreshold cfg mentioned true rate := by
  have hW : 'W' ∈ (pyUpper content).data := by
    rcases h with h | h
    · have := List.mem_map_of_mem Char.toUpper h
      simpa [pyUpper] using this
    · have := List.mem_map_of_mem Char.toUpper h
      simpa [pyUpper] using this
  have hinf : ("W" : String).data <:+: (pyUpper content).data := by
    obtain ⟨s, t, hst⟩ := List.append_of_mem hW
    exact ⟨s, t, by simp [hst]⟩
  have hdet : detectHypeTokens content = true := by
    apply List.any_eq_true.mpr
    refine ⟨"W", by simp [HYPE_TOKENS], ?_⟩
    simpa [pyContains] using hinf
  exact ⟨hdet, fun cfg mentioned rate => by rw [hdet]⟩

/-- Witness for C10 at a concrete content containing a lowercase w. -/
theorem C10_hype_detection_overtriggers_on_w_witness :
    detectHypeTokens "wow nice play" = true ∧
    ∀ (cfg : PolicyCfg) (mentioned : Bool) (rate : Nat),
      computeThreshold cfg mentioned (detectHypeTokens "wow nice play") rate =
        computeThreshold cfg mentioned true rate :=
  C10_hype_detection_overtriggers_on_w "wow nice play" (by decide)

/-- Helper: when the five hard gates pass and no E2E marker is present,
`should_speak` reaches the probabilistic branch. -/
theorem shouldSpeak_prob_path (cfg : PolicyCfg) (personaCfgs : List (String × PersonaCfg))
    (personaStats : PersonaStatsView) (room : RoomStateView)
    (personaId : String) (e : EventMsg) (nowDtMs nowMs : Int)
    (hgates : passesHardGates cfg personaStats room e nowDtMs nowMs)
    (hnomarker : markerPresent (e.content.getD "") = false) :
    shouldSpeak cfg personaCfgs personaStats room personaId e nowDtMs nowMs =
      (let content := e.content.getD ""
       let mention := detectMentions content (personaDisplayName personaCfgs personaId)
       let hype := detectHypeTokens content
       let rate := rate10s nowMs room.event_times
       let hValue : ℚ :=
         match e.id with
         | some m => if m ≠ "" then deterministicHashScore (m ++ ":" ++ personaId) else 1
         | none => 1
       let p := computeThreshold cfg mention hype rate
       let tagsv : Tags :=
         { p_used := some p, h_value := some hValue, mention_detected := mention,
           hype_detected := hype, rate_10s := rate, ts_ms := e.ts_ms.getD nowDtMs,
           bot_react_to_bot_weight := cfg.bot_react_to_bot_weight }
       if hValue < p then (true, "p_pass", tagsv) else (false, "p_gate", tagsv)) := by
  obtain ⟨h1, h2, h3, h4, h5⟩ := hgates
  have hage : ¬ (((nowDtMs - e.ts_ms.getD nowDtMs : Int) : ℚ) / 1000 > cfg.max_react_age_s) :=
    not_lt.mpr h2
  have hbudget : ¬ (¬ withinBudget cfg.max_bot_msgs_per_10s 10000 nowMs
      room.bot_publish_times = true) := by
    simp [h5]
  simp only [shouldSpeak, if_neg h1, if_neg hage, if_neg h3, h4, Bool.false_eq_true,
    if_false, if_neg hbudget, hnomarker]

/-- Helper: every byte of a BLAKE2b digest is below 256. -/
theorem blake2b_bytes_lt (outLen : Nat) (msg : Bytes) :
    ∀ b ∈ blake2b outLen msg, b < 256 := by
  intro b hb
  unfold blake2b at hb
  have hb2 := List.mem_of_mem_take hb
  obtain ⟨inner, hinner, hbin⟩ := List.mem_flatten.mp hb2
  obtain ⟨w, _, hw⟩ := List.mem_map.mp hinner
  subst hw
  obtain ⟨k, _, hk⟩ := List.mem_map.mp hbin
  subst hk
  exact Nat.mod_lt _ (by norm_num)

/-- Helper: the big-endian value of a byte string is below `256 ^ length`. -/
theorem bytesToNatBE_lt (bs : Bytes) (h : ∀ b ∈ bs, b < 256) :
    bytesToNatBE bs < 256 ^ bs.length := by
  have aux : ∀ (bs : Bytes) (a : Nat), (∀ b ∈ bs, b < 256) →
      List.foldl (fun acc b => acc * 256 + b) a bs < (a + 1) * 256 ^ bs.length := by
    intro bs
    induction bs with
    | nil => intro a _; simp
    | cons b rest ih =>
      intro a hlt
      have hb : b < 256 := hlt b (by simp)
      have := ih (a * 256 + b) (fun x hx => hlt x (by simp [hx]))
      calc List.foldl (fun acc b => acc * 256 + b) a (b :: rest)
          = List.foldl (fun acc b => acc * 256 + b) (a * 256 + b) rest := by simp [List.foldl]
        _ < (a * 256 + b + 1) * 256 ^ rest.length := this
        _ ≤ ((a + 1) * 256) * 256 ^ rest.length := by
            have : a * 256 + b + 1 ≤ (a + 1) * 256 := by nlinarith
            exact Nat.mul_le_mul_right _ this
        _ = (a + 1) * 256 ^ (b :: rest).length := by ring_nf; simp [List.length_cons]; ring
  have := aux bs 0 h
  simpa [bytesToNatBE] using this

/-- Helper: the 8-byte BLAKE2b score numerator is below `2 ^ 64`. -/
theorem blake2b8_value_lt (msg : Bytes) : bytesToNatBE (blake2b 8 msg) < 2 ^ 64 := by
  have hlt := bytesToNatBE_lt (blake2b 8 msg) (blake2b_bytes_lt 8 msg)
  have hlen : (blake2b 8 msg).length ≤ 8 := by
    unfold blake2b
    simp
  calc bytesToNatBE (blake2b 8 msg) < 256 ^ (blake2b 8 msg).length := hlt
    _ ≤ 256 ^ 8 := Nat.pow_le_pow_right (by norm_num) hlen
    _ = 2 ^ 64 := by norm_num

/-- Helper: the deterministic score lies in `[0, 1)`. -/
theorem deterministicHashScore_mem_Ico (value : String) :
    0 ≤ deterministicHashScore value ∧ deterministicHashScore value < 1 := by
  unfold deterministicHashScore
  constructor
  · positivity
  · rw [div_lt_one (by positivity)]
    exact_mod_cast blake2b8_value_lt (utf8Encode value)

/-- C2: on the probabilistic path (hard gates pass, no E2E marker, id
present and nonempty), the threshold `p` equals `p_base`, raised by
`p_mention_bonus` clamped at 1.0 on a mention of the persona display name
(bare or `@`-prefixed, case-insensitive), raised by `p_hype_bonus` clamped
at 1.0 on a hype token, then lowered to
`max(0.02, p - p_rate_penalty_per_msg * rate_10s)` when `rate_10s > 0`;
the score `h` is the first 8 bytes of
`BLAKE2b("<message_id>:<persona_id>", digest_size 8)` as an unsigned
big-endian integer divided by `2 ^ 64`, lying in `[0, 1)`; and the persona
emits if and only if `h < p`. -/
theorem C2_probabilistic_gate (cfg : PolicyCfg) (personaCfgs : List (String × PersonaCfg))
    (personaStats : PersonaStatsView) (room : RoomStateView)
    (personaId : String) (e : EventMsg) (nowDtMs nowMs : Int) (mid : String)
    (hgates : passesHardGates cfg personaStats room e nowDtMs nowMs)
    (hnomarker : markerPresent (e.content.getD "") = false)
    (hid : e.id = some mid) (hmid : mid ≠ "") :
    (let content := e.content.getD ""
     let mention := detectMentions content (personaDisplayName personaCfgs personaId)
     let hype := detectHypeTokens content
     let rate := rate10s nowMs room.event_times
     let hScore : ℚ :=
       (bytesToNatBE (blake2b 8 (utf8Encode (mid ++ ":" ++ personaId))) : ℚ) / (2 ^ 64 : ℚ)
     let p1 := if mention then min 1 (cfg.p_base + cfg.p_mention_bonus) else cfg.p_base
     let p2 := if hype then min 1 (p1 + cfg.p_hype_bonus) else p1
     let p := if 0 < rate then max (2 / 100) (p2 - cfg.p_rate_penalty_per_msg * rate) else p2
     0 ≤ hScore ∧ hScore < 1 ∧
     ((shouldSpeak cfg personaCfgs personaStats room personaId e nowDtMs nowMs).1 = true
        ↔ hScore < p) ∧
     (shouldSpeak cfg personaCfgs personaStats room personaId e nowDtMs nowMs).2.2.p_used =
        some p ∧
     (shouldSpeak cfg personaCfgs personaStats room personaId e nowDtMs nowMs).2.2.h_value =
        some hScore) := by
  intro content mention hype rate hScore p1 p2 p
  have hrw := shouldSpeak_prob_path cfg personaCfgs personaStats room personaId e nowDtMs nowMs
    hgates hnomarker
  have hsc : deterministicHashScore (mid ++ ":" ++ personaId) = hScore := rfl
  have hpq : computeThreshold cfg mention hype rate = p := by
    simp only [computeThreshold, p, p2, p1]
  have hbounds := deterministicHashScore_mem_Ico (mid ++ ":" ++ personaId)
  refine ⟨hbounds.1, hbounds.2, ?_, ?_, ?_⟩ <;>
    rw [hrw] <;>
    simp only [hid, hmid, ne_eq, not_false_iff, if_true, hsc, hpq] <;>
    by_cases hlt : hScore < p
  · simp [hlt]
  · simp [hlt]
  · simp [hlt]
  · simp [hlt]
  · simp [hlt]
  · simp [hlt]

/-- Witness for C2 at the S2-style concrete input: persona `p1` with
display name `ClipGoblin`, message `"@clipgoblin lfg"` and id `msg-123`. -/
theorem C2_probabilistic_gate_witness :
    passesHardGates { room_id := some "r1" } {} {}
      { id := some "msg-123", ts_ms := some 1000, room_id := some "r1",
        origin := some "human", content := some "@clipgoblin lfg" } 1000 1000 ∧
    (shouldSpeak { room_id := some "r1" }
        [("p1", { presentation_display_name := some "ClipGoblin" })] {} {} "p1"
        { id := some "msg-123", ts_ms := some 1000, room_id := some "r1",
          origin := some "human", content := some "@clipgoblin lfg" }
        1000 1000).2.2.h_value =
      some ((9385284346719521769 : ℚ) / (2 ^ 64 : ℚ)) := by
  constructor
  · exact ⟨by decide, by norm_num, by decide, by decide, by decide⟩
  · have h := C2_probabilistic_gate { room_id := some "r1" }
      [("p1", { presentation_display_name := some "ClipGoblin" })] {} {} "p1"
      { id := some "msg-123", ts_ms := some 1000, room_id := some "r1",
        origin := some "human", content := some "@clipgoblin lfg" }
      1000 1000 "msg-123"
      ⟨by decide, by norm_num, by decide, by decide, by decide⟩ (by decide) rfl (by decide)
    have h5 := h.2.2.2.2
    rw [h5]
    norm_num [show bytesToNatBE (blake2b 8 (utf8Encode ("msg-123" ++ ":" ++ "p1"))) =
      9385284346719521769 from by decide]

/-- C9: when a firehose message reaches the probabilistic gate with a
missing or empty `id`, `should_speak` fixes the score `h_value` at 1.0,
so whenever the computed threshold is at most 1.0 the decision is
`emit = false` with reason `p_gate`. -/
theorem C9_missing_id_never_emits (cfg : PolicyCfg)
    (personaCfgs : List (String × PersonaCfg)) (personaStats : PersonaStatsView)
    (room : RoomStateView) (personaId : String) (e : EventMsg) (nowDtMs nowMs : Int)
    (hgates : passesHardGates cfg personaStats room e nowDtMs nowMs)
    (hnomarker : markerPresent (e.content.getD "") = false)
    (hid : e.id = none ∨ e.id = some "")
    (hp : computeThreshold cfg
        (detectMentions (e.content.getD "") (personaDisplayName personaCfgs personaId))
        (detectHypeTokens (e.content.getD "")) (rate10s nowMs room.event_times) ≤ 1) :
    (shouldSpeak cfg personaCfgs personaStats room personaId e nowDtMs nowMs).1 = false ∧
    (shouldSpeak cfg personaCfgs personaStats room personaId e nowDtMs nowMs).2.1 =
      "p_gate" ∧
    (shouldSpeak cfg personaCfgs personaStats room personaId e nowDtMs nowMs).2.2.h_value =
      some 1 := by
  have hrw := shouldSpeak_prob_path cfg personaCfgs personaStats room personaId e nowDtMs
    nowMs hgates hnomarker
  have hnlt : ¬ ((1 : ℚ) < computeThreshold cfg
      (detectMentions (e.content.getD "") (personaDisplayName personaCfgs personaId))
      (detectHypeTokens (e.content.getD "")) (rate10s nowMs room.event_times)) :=
    not_lt.mpr hp
  refine ⟨?_, ?_, ?_⟩ <;> rw [hrw] <;> rcases hid with hid | hid <;>
    simp [hid, hnlt]

/-- Witness for C9 at a concrete message lacking an id. -/
theorem C9_missing_id_never_emits_witness :
    (shouldSpeak { room_id := some "r1" } [] {} {} "p1"
      { id := none, ts_ms := some 1000, room_id := some "r1",
        origin := some "human", content := some "hi there" } 1000 1000).1 = false ∧
    (shouldSpeak { room_id := some "r1" } [] {} {} "p1"
      { id := none, ts_ms := some 1000, room_id := some "r1",
        origin := some "human", content := some "hi there" } 1000 1000).2.1 = "p_gate" ∧
    (shouldSpeak { room_id := some "r1" } [] {} {} "p1"
      { id := none, ts_ms := some 1000, room_id := some "r1",
        origin := some "human", content := some "hi there" } 1000 1000).2.2.h_value =
      some 1 :=
  C9_missing_id_never_emits { room_id := some "r1" } [] {} {} "p1"
    { id := none, ts_ms := some 1000, room_id := some "r1",
      origin := some "human", content := some "hi there" } 1000 1000
    ⟨by decide, by norm_num, by decide, by decide, by decide⟩ (by decide) (Or.inl rfl)
    (by
      have h1 : detectMentions "hi there" (personaDisplayName [] "p1") = false := by decide
      have h2 : detectHypeTokens "hi there" = false := by decide
      show computeThreshold _ (detectMentions "hi there" (personaDisplayName [] "p1"))
        (detectHypeTokens "hi there") (rate10s 1000 []) ≤ 1
      rw [h1, h2]
      simp [computeThreshold, rate10s]
      norm_num)

/-- Helper: stripping trailing LFs absorbs an appended LF. -/
theorem rstripLf_append_lf (l : List Char) : rstripLf (l ++ ['\n']) = rstripLf l := by
  unfold rstripLf
  rw [List.reverse_append]
  simp [List.dropWhile]

/-- Helper: the CR-to-LF map distributes over append. -/
theorem replaceCrWithLf_append (l1 l2 : List Char) :
    replaceCrWithLf (l1 ++ l2) = replaceCrWithLf l1 ++ replaceCrWithLf l2 := by
  simp [replaceCrWithLf]

/-- Helper: appending an LF to the input of the CRLF pass either appends an
LF to its output, or — when the output ended in a CR — merges with it into
a single LF. -/
theorem replaceCrLfWithLf_append_lf (l : List Char) :
    replaceCrLfWithLf (l ++ ['\n']) = replaceCrLfWithLf l ++ ['\n'] ∨
    ∃ l0, replaceCrLfWithLf l = l0 ++ ['\r'] ∧
      replaceCrLfWithLf (l ++ ['\n']) = l0 ++ ['\n'] := by
  have aux : ∀ (n : Nat) (l : List Char), l.length ≤ n →
      (replaceCrLfWithLf (l ++ ['\n']) = replaceCrLfWithLf l ++ ['\n'] ∨
       ∃ l0, replaceCrLfWithLf l = l0 ++ ['\r'] ∧
         replaceCrLfWithLf (l ++ ['\n']) = l0 ++ ['\n']) := by
    intro n
    induction n with
    | zero =>
      intro l hl
      have : l = [] := List.length_eq_zero.mp (Nat.le_zero.mp hl)
      subst this
      left
      simp [replaceCrLfWithLf]
    | succ n ihn =>
      intro l hl
      match l with
      | [] =>
        left
        simp [replaceCrLfWithLf]
      | [c] =>
        by_cases hc : c = '\r'
        · subst hc
          right
          exact ⟨[], by simp [replaceCrLfWithLf], by simp [replaceCrLfWithLf]⟩
        · left
          simp [replaceCrLfWithLf, hc]
      | c1 :: c2 :: rest =>
        have hrest : (c2 :: rest).length ≤ n := by
          simp only [List.length_cons] at hl ⊢
          omega
        by_cases hcd : c1 = '\r' ∧ c2 = '\n'
        · have hr : rest.length ≤ n := by
            simp only [List.length_cons] at hl
            omega
          have hstep1 : replaceCrLfWithLf ((c1 :: c2 :: rest) ++ ['\n']) =
              '\n' :: replaceCrLfWithLf (rest ++ ['\n']) := by
            simp [replaceCrLfWithLf, hcd]
          have hstep2 : replaceCrLfWithLf (c1 :: c2 :: rest) =
              '\n' :: replaceCrLfWithLf rest := by
            simp [replaceCrLfWithLf, hcd]
          rcases ihn rest hr with h | ⟨l0, h1, h2⟩
          · left
            rw [hstep1, hstep2, h]
            simp
          · right
            exact ⟨'\n' :: l0, by rw [hstep2, h1]; simp, by rw [hstep1, h2]; simp⟩
        · have hstep1 : replaceCrLfWithLf ((c1 :: c2 :: rest) ++ ['\n']) =
              c1 :: replaceCrLfWithLf ((c2 :: rest) ++ ['\n']) := by
            simp [replaceCrLfWithLf, hcd]
          have hstep2 : replaceCrLfWithLf (c1 :: c2 :: rest) =
              c1 :: replaceCrLfWithLf (c2 :: rest) := by
            simp [replaceCrLfWithLf, hcd]
          rcases ihn (c2 :: rest) hrest with h | ⟨l0, h1, h2⟩
          · left
            rw [hstep1, hstep2, h]
            simp
          · right
            exact ⟨c1 :: l0, by rw [hstep2, h1]; simp, by rw [hstep1, h2]; simp⟩
  exact aux l.length l le_rfl

/-- Helper: the canonical prompt text absorbs a trailing newline. -/
theorem canonicalPromptText_append_lf (s : String) :
    canonicalPromptText (s ++ "\n") = canonicalPromptText s := by
  unfold canonicalPromptText
  have hdata : (s ++ "\n").data = s.data ++ ['\n'] := by
    simp [String.data_append]
  rw [hdata]
  rcases replaceCrLfWithLf_append_lf s.data with h | ⟨l0, h1, h2⟩
  · rw [h, replaceCrWithLf_append]
    have : replaceCrWithLf ['\n'] = ['\n'] := by simp [replaceCrWithLf]
    rw [this, rstripLf_append_lf]
  · rw [h2, h1, replaceCrWithLf_append, replaceCrWithLf_append]
    have hlf : replaceCrWithLf ['\n'] = ['\n'] := by simp [replaceCrWithLf]
    have hcr : replaceCrWithLf ['\r'] = ['\n'] := by simp [replaceCrWithLf]
    rw [hlf, hcr, rstripLf_append_lf]

/-- Helper: `lfToCrlf` sends the empty list only to the empty list. -/
theorem lfToCrlf_eq_nil_iff (l : List Char) : lfToCrlf l = [] ↔ l = [] := by
  cases l with
  | nil => simp [lfToCrlf]
  | cons c rest =>
    constructor
    · intro h
      by_cases hc : c = '\n' <;> simp [lfToCrlf, hc] at h
    · intro h
      exact absurd h (List.cons_ne_nil c rest)

/-- Helper: on CR-free text the CRLF pass undoes the LF-to-CRLF switch. -/
theorem replaceCrLfWithLf_lfToCrlf (l : List Char) (h : '\r' ∉ l) :
    replaceCrLfWithLf (lfToCrlf l) = l := by
  induction l with
  | nil => simp [lfToCrlf, replaceCrLfWithLf]
  | cons c rest ih =>
    have hc : c ≠ '\r' := fun hc => h (hc ▸ List.mem_cons_self c rest)
    have hrest : '\r' ∉ rest := fun hr => h (List.mem_cons_of_mem c hr)
    by_cases hlf : c = '\n'
    · subst hlf
      have : lfToCrlf ('\n' :: rest) = '\r' :: '\n' :: lfToCrlf rest := by
        simp [lfToCrlf]
      rw [this]
      simp only [replaceCrLfWithLf, and_self, if_true]
      rw [ih hrest]
    · have hstep : lfToCrlf (c :: rest) = c :: lfToCrlf rest := by
        simp [lfToCrlf, hlf]
      rw [hstep]
      cases htail : lfToCrlf rest with
      | nil =>
        have : rest = [] := (lfToCrlf_eq_nil_iff rest).mp htail
        subst this
        simp [replaceCrLfWithLf]
      | cons d ds =>
        have hnp : ¬ (c = '\r' ∧ d = '\n') := fun hcd => hc hcd.1
        simp only [replaceCrLfWithLf, hnp, if_false]
        rw [← htail, ih hrest]

/-- Helper: the CR map is the identity on CR-free text. -/
theorem replaceCrWithLf_of_not_mem (l : List Char) (h : '\r' ∉ l) :
    replaceCrWithLf l = l := by
  induction l with
  | nil => rfl
  | cons c rest ih =>
    have hc : c ≠ '\r' := fun hc => h (hc ▸ List.mem_cons_self c rest)
    have hrest : '\r' ∉ rest := fun hr => h (List.mem_cons_of_mem c hr)
    simp [replaceCrWithLf, hc] at ih ⊢
    exact ih hrest

/-- Helper: the CRLF pass is the identity on CR-free text. -/
theorem replaceCrLfWithLf_of_not_mem (l : List Char) (h : '\r' ∉ l) :
    replaceCrLfWithLf l = l := by
  induction l with
  | nil => rfl
  | cons c rest ih =>
    have hc : c ≠ '\r' := fun hc => h (hc ▸ List.mem_cons_self c rest)
    have hrest : '\r' ∉ rest := fun hr => h (List.mem_cons_of_mem c hr)
    cases rest with
    | nil => simp [replaceCrLfWithLf]
    | cons d ds =>
      have hnp : ¬ (c = '\r' ∧ d = '\n') := fun hcd => hc hcd.1
      simp only [replaceCrLfWithLf, hnp, if_false]
      rw [ih hrest]

/-- C8 (counterexample): the claim adds that switching LF to CRLF never
changes the digest; it does when the content already contains a CR
directly before an LF.  Switching the LFs of `"\r\nX"` to CRLF gives
`"\r\r\nX"`, whose canonical text is `"\n\nX\n"` versus `"\nX\n"`, and
the SHA-256 digests differ. -/
theorem C8_counterexample_cr_before_lf :
    lfToCrlf ("\r\nX" : String).data = ("\r\r\nX" : String).data ∧
    canonicalPromptSha256 "\r\nX" ≠ canonicalPromptSha256 "\r\r\nX" := by
  constructor
  · decide
  · decide

/-- C8 (amended): canonical prompt hashing is invariant under the
newline normalization itself: contents with equal canonical text hash
identically; appending a trailing newline never changes the digest; and
for CR-free contents switching LF to CRLF never changes the digest. -/
theorem C8_amended_canonical_hash_stability :
    (∀ a b : String, canonicalPromptText a = canonicalPromptText b →
        canonicalPromptSha256 a = canonicalPromptSha256 b) ∧
    (∀ s : String, canonicalPromptSha256 (s ++ "\n") = canonicalPromptSha256 s) ∧
    (∀ s : String, '\r' ∉ s.data →
        canonicalPromptSha256 ⟨lfToCrlf s.data⟩ = canonicalPromptSha256 s) := by
  refine ⟨?_, ?_, ?_⟩
  · intro a b h
    unfold canonicalPromptSha256
    rw [h]
  · intro s
    unfold canonicalPromptSha256
    rw [canonicalPromptText_append_lf]
  · intro s h
    unfold canonicalPromptSha256
    unfold canonicalPromptText
    rw [show (String.mk (lfToCrlf s.data)).data = lfToCrlf s.data from rfl]
    rw [replaceCrLfWithLf_lfToCrlf s.data h, replaceCrLfWithLf_of_not_mem s.data h]

/-- Witness for the amended C8 at concrete prompt contents. -/
theorem C8_amended_canonical_hash_stability_witness :
    canonicalPromptSha256 "a\r\nb" = canonicalPromptSha256 "a\nb\n" ∧
    canonicalPromptSha256 ("line\n" ++ "\n") = canonicalPromptSha256 "line\n" ∧
    canonicalPromptSha256 ⟨lfToCrlf ("l1\nl2" : String).data⟩ = canonicalPromptSha256 "l1\nl2" :=
  ⟨C8_amended_canonical_hash_stability.1 "a\r\nb" "a\nb\n" (by decide),
   C8_amended_canonical_hash_stability.2.1 "line\n",
   C8_amended_canonical_hash_stability.2.2 "l1\nl2" (by decide)⟩

/-- Helper: SHA-256 always produces eight 32-bit words. -/
theorem sha256_core_length (blocks : List Bytes) (h0 : List Nat) (hlen : h0.length = 8) :
    (blocks.foldl shaCompress h0).length = 8 := by
  induction blocks generalizing h0 with
  | nil => simpa using hlen
  | cons b rest ih =>
    simp only [List.foldl_cons]
    exact ih (shaCompress h0 b) (by simp [shaCompress])

/-- Helper: flattening lists of a fixed length multiplies the length. -/
theorem length_flatten_of_fixed {α β : Type} (l : List α) (f : α → List β) (k : Nat)
    (h : ∀ a ∈ l, (f a).length = k) : ((l.map f).flatten).length = l.length * k := by
  induction l with
  | nil => simp
  | cons a rest ih =>
    simp only [List.map_cons, List.flatten_cons, List.length_append, List.length_cons]
    rw [h a (by simp), ih fun x hx => h x (by simp [hx])]
    ring

/-- Helper: a SHA-256 hex digest is never the empty string. -/
theorem sha256HexOfString_ne_empty (s : String) : sha256HexOfString s ≠ "" := by
  intro hcontra
  have hlen8 : ((chunks 64 (shaPad (utf8Encode s))).foldl shaCompress shaH0).length = 8 :=
    sha256_core_length _ _ (by simp [shaH0])
  have hsha : (sha256 (utf8Encode s)).length = 32 := by
    unfold sha256
    rw [length_flatten_of_fixed _ _ 4 (fun w _ => by simp), hlen8]
  have hhex : (bytesToHex (sha256 (utf8Encode s))).data.length = 64 := by
    unfold bytesToHex
    rw [show (String.mk ((List.map (fun b =>
        ["0123456789abcdef".data.getD (b / 16) '0',
         "0123456789abcdef".data.getD (b % 16) '0']) (sha256 (utf8Encode s))).flatten)).data =
      (List.map (fun b =>
        ["0123456789abcdef".data.getD (b / 16) '0',
         "0123456789abcdef".data.getD (b % 16) '0']) (sha256 (utf8Encode s))).flatten from rfl]
    rw [length_flatten_of_fixed _ _ 2 (fun b _ => by simp), hsha]
  rw [show bytesToHex (sha256 (utf8Encode s)) = sha256HexOfString s from rfl, hcontra] at hhex
  simp at hhex

/-- Helper: an element not satisfying the predicate survives `dropWhile`. -/
theorem mem_dropWhile_of_mem {α : Type} (p : α → Bool) (l : List α) (x : α)
    (hx : x ∈ l) (hpx : p x = false) : x ∈ l.dropWhile p := by
  induction l with
  | nil => cases hx
  | cons a as ih =>
    by_cases hpa : p a = true
    · rw [List.dropWhile_cons_of_pos hpa]
      rcases List.mem_cons.mp hx with rfl | hmem
      · rw [hpx] at hpa
        cases hpa
      · exact ih hmem
    · rw [List.dropWhile_cons_of_neg hpa]
      exact hx

/-- Helper: when the dedupe map misses, the hash is recorded with the
current time. -/
theorem autoSummarySeenBefore_not_seen_mem (s : AutoState) (hash : String) (now ttl : Int)
    (h : ¬ (autoSummarySeenBefore s hash now ttl).1 = true) :
    (hash, now) ∈ (autoSummarySeenBefore s hash now ttl).2.auto_summary_seen := by
  simp only [autoSummarySeenBefore] at h ⊢
  cases hlk : (List.lookup hash
      (if ttl ≤ 0 then []
       else List.dropWhile (fun e => decide (now - e.2 > ttl)) s.auto_summary_seen)) with
  | some v => rw [hlk] at h; simp at h
  | none => simp

/-- Helper: a successful `should_emit` with summary dedupe enabled and a
nonempty summary hash records the hash with the evaluation time. -/
theorem shouldEmit_true_records_summary (obs : Observation) (s : AutoState) (cfg : AutoCfg)
    (now : Int) (henabled : cfg.summary_dedupe.enabled = true)
    (hne : computeSummaryHash obs cfg ≠ "")
    (htrue : ((shouldEmit obs s cfg now).1).1 = true) :
    (computeSummaryHash obs cfg, now) ∈ ((shouldEmit obs s cfg now).2).auto_summary_seen := by
  simp only [shouldEmit] at htrue ⊢
  split_ifs at htrue ⊢
  all_goals simp at htrue
  all_goals (rename_i hseen; exact autoSummarySeenBefore_not_seen_mem _ _ _ _ hseen)

/-- Helper: a present key makes the association-list lookup succeed. -/
theorem lookup_isSome_of_mem {β : Type} (l : List (String × β)) (k : String) (v : β)
    (h : (k, v) ∈ l) : (l.lookup k).isSome = true := by
  induction l with
  | nil => cases h
  | cons p rest ih =>
    obtain ⟨k2, v2⟩ := p
    rcases List.mem_cons.mp h with heq | hmem
    · cases heq
      simp [List.lookup]
    · simp only [List.lookup]
      by_cases hbeq : (k == k2) = true
      · simp [hbeq]
      · simp only [hbeq, Bool.false_eq_true, if_false]
        exact ih hmem

/-- Helper: a key present in the pruned map is reported as seen. -/
theorem autoSummarySeenBefore_seen_of_mem (s : AutoState) (hash : String) (now ttl ts : Int)
    (hmem : (hash, ts) ∈ s.auto_summary_seen)
    (hkeep : ¬ (now - ts > ttl)) (httl : ¬ (ttl ≤ 0)) :
    (autoSummarySeenBefore s hash now ttl).1 = true := by
  simp only [autoSummarySeenBefore]
  have hmem2 : (hash, ts) ∈
      (if ttl ≤ 0 then []
       else List.dropWhile (fun e => decide (now - e.2 > ttl)) s.auto_summary_seen) := by
    rw [if_neg httl]
    exact mem_dropWhile_of_mem _ _ _ hmem (by simpa using hkeep)
  cases hlk : (List.lookup hash
      (if ttl ≤ 0 then []
       else List.dropWhile (fun e => decide (now - e.2 > ttl)) s.auto_summary_seen)) with
  | some v => simp [hlk]
  | none =>
    exfalso
    have hks := lookup_isSome_of_mem _ _ _ hmem2
    rw [hlk] at hks
    simp at hks

/-- Helper: the per-observation count gate only prunes the counters map,
leaving the summary-dedupe map untouched. -/
theorem autoObservationCount_preserves_summary (s : AutoState) (obsId : String)
    (nowMs windowMs : Int) :
    ((autoObservationCount s obsId nowMs windowMs).2).auto_summary_seen =
      s.auto_summary_seen := by
  simp [autoObservationCount]

/-- C6: with summary dedupe enabled, for two observations whose normalized
summaries are equal and non-empty, where the first passes `should_emit`
and the second is evaluated within `summary_dedupe.ttl_ms` of the first
(all earlier gates passing), the second `should_emit` returns
`emit = false` with reason `summary_dedupe`. -/
theorem C6_second_observation_summary_deduped (o1 o2 : Observation) (s0 : AutoState)
    (cfg : AutoCfg) (t1 t2 : Int)
    (henabled : cfg.summary_dedupe.enabled = true)
    (httlpos : 0 < cfg.summary_dedupe.ttl_ms)
    (hnorm : normalizeSummary (o1.summary.getD "") cfg.summary_dedupe.normalize =
             normalizeSummary (o2.summary.getD "") cfg.summary_dedupe.normalize)
    (hne : normalizeSummary (o2.summary.getD "") cfg.summary_dedupe.normalize ≠ "")
    (hfirst : ((shouldEmit o1 s0 cfg t1).1).1 = true)
    (httl : t2 - t1 ≤ cfg.summary_dedupe.ttl_ms)
    (hint2 : (isInteresting o2 cfg (computeInterestScore o2 cfg)).1 = true)
    (hmm2 : (autoRoomMomentumReady (shouldEmit o1 s0 cfg t1).2 (o2.room_id.getD "") t2
        cfg.momentum_window_ms cfg.momentum_max_msgs cfg.momentum_min_interval_ms).1 = true)
    (hroom2 : autoRoomReady (shouldEmit o1 s0 cfg t1).2 (o2.room_id.getD "") t2
        cfg.room_rate_limit_ms = true)
    (hcnt2 : cfg.max_messages_per_observation > 0 ∧ o2.id.getD "" ≠ "" →
        ((autoObservationCount (shouldEmit o1 s0 cfg t1).2 (o2.id.getD "") t2
            cfg.dedupe_window_ms).1 : Int) < cfg.max_messages_per_observation) :
    (shouldEmit o2 (shouldEmit o1 s0 cfg t1).2 cfg t2).1 =
      (false, "summary_dedupe", computeInterestScore o2 cfg) := by
  have hh12 : computeSummaryHash o1 cfg = computeSummaryHash o2 cfg := by
    simp only [computeSummaryHash]
    rw [hnorm]
  have hne2 : computeSummaryHash o2 cfg ≠ "" := by
    simp only [computeSummaryHash]
    rw [if_neg hne]
    exact sha256HexOfString_ne_empty _
  have hne1 : computeSummaryHash o1 cfg ≠ "" := hh12 ▸ hne2
  have hmem : (computeSummaryHash o1 cfg, t1) ∈
      ((shouldEmit o1 s0 cfg t1).2).auto_summary_seen :=
    shouldEmit_true_records_summary o1 s0 cfg t1 henabled hne1 hfirst
  have hmem2 : (computeSummaryHash o2 cfg, t1) ∈
      ((shouldEmit o1 s0 cfg t1).2).auto_summary_seen := hh12 ▸ hmem
  have hkeep : ¬ (t2 - t1 > cfg.summary_dedupe.ttl_ms) := not_lt.mpr httl
  have httln : ¬ (cfg.summary_dedupe.ttl_ms ≤ 0) := not_le.mpr httlpos
  set s1 := (shouldEmit o1 s0 cfg t1).2 with hs1
  simp only [shouldEmit]
  rw [if_neg (not_not_intro hint2), if_neg (not_not_intro hmm2),
    if_neg (not_not_intro hroom2)]
  by_cases hcond : cfg.max_messages_per_observation > 0 ∧ o2.id.getD "" ≠ ""
  · rw [if_pos hcond]
    have hlt := hcnt2 hcond
    have hdec : decide (((autoObservationCount s1 (o2.id.getD "") t2
        cfg.dedupe_window_ms).1 : Int) ≥ cfg.max_messages_per_observation) = false := by
      simp only [decide_eq_false_iff_not]
      omega
    rw [if_neg (by simp [hdec] : ¬ ((autoObservationCount s1
      (o2.id.getD "") t2 cfg.dedupe_window_ms).2,
      decide (((autoObservationCount s1 (o2.id.getD "") t2
        cfg.dedupe_window_ms).1 : Int) ≥ cfg.max_messages_per_observation)).2 = true)]
    rw [if_pos henabled, if_pos hne2]
    have hmem3 : (computeSummaryHash o2 cfg, t1) ∈
        (((autoObservationCount s1 (o2.id.getD "") t2
          cfg.dedupe_window_ms).2,
          decide (((autoObservationCount s1 (o2.id.getD "") t2
            cfg.dedupe_window_ms).1 : Int) ≥ cfg.max_messages_per_observation)).1).auto_summary_seen := by
      rw [show (((autoObservationCount s1 (o2.id.getD "") t2
          cfg.dedupe_window_ms).2,
          decide (((autoObservationCount s1 (o2.id.getD "") t2
            cfg.dedupe_window_ms).1 : Int) ≥ cfg.max_messages_per_observation)).1) =
        (autoObservationCount s1 (o2.id.getD "") t2
          cfg.dedupe_window_ms).2 from rfl]
      rw [autoObservationCount_preserves_summary]
      exact hmem2
    have hseen := autoSummarySeenBefore_seen_of_mem _ (computeSummaryHash o2 cfg) t2
      cfg.summary_dedupe.ttl_ms t1 hmem3 hkeep httln
    rw [if_pos hseen]
  · rw [if_neg hcond]
    rw [if_neg (by simp : ¬ ((s1, false).2 = true))]
    rw [if_pos henabled, if_pos hne2]
    have hseen := autoSummarySeenBefore_seen_of_mem _ (computeSummaryHash o2 cfg) t2
      cfg.summary_dedupe.ttl_ms t1 hmem2 hkeep httln
    rw [if_pos hseen]

/-- Witness for C6 at two concrete observations whose summaries normalize
identically ("Big Play!" versus "big play"), one second apart. -/
theorem C6_second_observation_summary_deduped_witness :
    (shouldEmit
        { id := some "obs-2", room_id := some "room:demo", summary := some "big play",
          hype_level := some 1 }
        (shouldEmit
          { id := some "obs-1", room_id := some "room:demo", summary := some "Big Play!",
            hype_level := some 1 }
          {}
          { hype_threshold := 0, trigger_tags := [], trigger_on_entities := false,
            room_rate_limit_ms := 0, max_messages_per_observation := 0,
            dedupe_window_ms := 60000, momentum_window_ms := 10000, momentum_max_msgs := 3,
            momentum_min_interval_ms := 0, interest_weights := ⟨1, 1, 1, 1⟩,
            summary_dedupe := ⟨true, 60000, true⟩ } 1000).2
        { hype_threshold := 0, trigger_tags := [], trigger_on_entities := false,
          room_rate_limit_ms := 0, max_messages_per_observation := 0,
          dedupe_window_ms := 60000, momentum_window_ms := 10000, momentum_max_msgs := 3,
          momentum_min_interval_ms := 0, interest_weights := ⟨1, 1, 1, 1⟩,
          summary_dedupe := ⟨true, 60000, true⟩ } 2000).1 =
      (false, "summary_dedupe",
        computeInterestScore
          { id := some "obs-2", room_id := some "room:demo", summary := some "big play",
            hype_level := some 1 }
          { hype_threshold := 0, trigger_tags := [], trigger_on_entities := false,
            room_rate_limit_ms := 0, max_messages_per_observation := 0,
            dedupe_window_ms := 60000, momentum_window_ms := 10000, momentum_max_msgs := 3,
            momentum_min_interval_ms := 0, interest_weights := ⟨1, 1, 1, 1⟩,
            summary_dedupe := ⟨true, 60000, true⟩ }) :=
  C6_second_observation_summary_deduped _ _ _ _ _ _ (by decide) (by decide) (by decide)
    (by decide) (by decide) (by decide) (by decide) (by decide) (by decide) (by decide)

/-- Helper: on a chronological deque the front-pruning loop keeps exactly
the in-window entries. -/
theorem pruneBudget_sorted_eq_filter (w now : Int) (l : List Int) (hs : l.Sorted (· ≤ ·)) :
    pruneBudget w now l = l.filter fun t => decide (now - t ≤ w) := by
  induction l with
  | nil => rfl
  | cons a as ih =>
    rcases List.sorted_cons.mp hs with ⟨ha, hsas⟩
    by_cases hp : now - a > w
    · have h1 : pruneBudget w now (a :: as) = pruneBudget w now as := by
        simp [pruneBudget, List.dropWhile_cons, hp]
      have h2 : ¬ (now - a ≤ w) := by omega
      rw [h1, ih hsas, List.filter_cons, if_neg (by simpa using h2)]
    · have h1 : pruneBudget w now (a :: as) = a :: as := by
        simp [pruneBudget, List.dropWhile_cons, hp]
      have h2 : now - a ≤ w := by omega
      have h3 : as.filter (fun t => decide (now - t ≤ w)) = as := by
        rw [List.filter_eq_self]
        intro b hb
        have hab := ha b hb
        simp only [decide_eq_true_eq]
        omega
      rw [h1, List.filter_cons, if_pos (by simpa using h2), h3]

/-- Helper: a pointwise-stronger filter keeps fewer elements. -/
theorem length_filter_mono (l : List Int) (p q : Int → Bool)
    (h : ∀ x, p x = true → q x = true) :
    (l.filter p).length ≤ (l.filter q).length := by
  induction l with
  | nil => simp
  | cons a as ih =>
    by_cases hp : p a = true
    · have hq := h a hp
      simp only [List.filter_cons, hp, hq, if_true, List.length_cons]
      exact Nat.succ_le_succ ih
    · by_cases hq : q a = true
      · simp only [List.filter_cons, hp, hq, if_true, Bool.false_eq_true, if_false,
          List.length_cons]
        exact Nat.le_succ_of_le ih
      · simp only [List.filter_cons, hp, hq, Bool.false_eq_true, if_false]
        exact ih

/-- Helper: pruning a cutoff-suffix of a chronological history at a later
time yields the later cutoff-suffix. -/
theorem pruneBudget_filter_cut (hist : List Int) (cut now : Int) (h : cut ≤ now - 10000)
    (hs : hist.Sorted (· ≤ ·)) :
    pruneBudget 10000 now (hist.filter fun t => decide (cut ≤ t)) =
      hist.filter fun t => decide (now - 10000 ≤ t) := by
  rw [pruneBudget_sorted_eq_filter _ _ _ (hs.filter _), List.filter_filter]
  apply List.filter_congr
  intro a _
  by_cases hc : now - 10000 ≤ a
  · have e1 : decide (now - a ≤ 10000) = true := decide_eq_true (by omega)
    have e2 : decide (cut ≤ a) = true := decide_eq_true (by omega)
    have e3 : decide (now - 10000 ≤ a) = true := decide_eq_true hc
    rw [e1, e2, e3]
    rfl
  · have e1 : decide (now - a ≤ 10000) = false := decide_eq_false (by omega)
    have e3 : decide (now - 10000 ≤ a) = false := decide_eq_false hc
    rw [e1, e3]
    rfl

/-- Helper: every step of the worker preserves the budget invariant. -/
theorem budgetInv_step (limit : Int) (hlim : 0 ≤ limit) (s s2 : BudgetSys)
    (hinv : BudgetInv limit s) (hstep : BudgetStep limit s s2) : BudgetInv limit s2 := by
  obtain ⟨hsort, hbound, ⟨cut, hcut, hdeq⟩, hwin⟩ := hinv
  cases hstep with
  | idle t1 h1 =>
    unfold BudgetInv
    dsimp only
    exact ⟨hsort, fun t ht => le_trans (hbound t ht) h1, ⟨cut, by omega, hdeq⟩, hwin⟩
  | declined t1 h1 =>
    unfold BudgetInv
    dsimp only
    refine ⟨hsort, fun t ht => le_trans (hbound t ht) h1, ⟨t1 - 10000, by omega, ?_⟩, hwin⟩
    rw [hdeq]
    exact pruneBudget_filter_cut s.hist cut t1 (by omega) hsort
  | publish t1 t2 h1 h2 hok =>
    unfold BudgetInv
    dsimp only
    have hP1 : pruneBudget 10000 t1 s.deque =
        s.hist.filter fun t => decide (t1 - 10000 ≤ t) := by
      rw [hdeq]
      exact pruneBudget_filter_cut s.hist cut t1 (by omega) hsort
    have hokn : ((pruneBudget 10000 t1 s.deque).length : Int) < limit := by
      simpa [withinBudget] using hok
    rw [hP1] at hokn
    have hsort2 : (s.hist ++ [t2]).Sorted (· ≤ ·) := by
      refine List.pairwise_append.mpr ⟨hsort, List.sorted_singleton t2, ?_⟩
      intro a ha b hb
      rw [List.mem_singleton] at hb
      subst hb
      have := hbound a ha
      omega
    refine ⟨hsort2, ?_, ⟨t2 - 10000, by omega, ?_⟩, ?_⟩
    · intro t ht
      rcases List.mem_append.mp ht with hmem | hmem
      · have := hbound t hmem
        omega
      · rw [List.mem_singleton] at hmem
        omega
    · -- the new deque is the suffix of the new history from cutoff t2 - 10000
      rw [hP1]
      have happsorted : (s.hist.filter (fun t => decide (t1 - 10000 ≤ t)) ++ [t2]).Sorted
          (· ≤ ·) := by
        refine List.pairwise_append.mpr ⟨hsort.filter _, List.sorted_singleton t2, ?_⟩
        intro a ha b hb
        rw [List.mem_singleton] at hb
        subst hb
        have := hbound a (List.mem_of_mem_filter ha)
        omega
      rw [pruneBudget_sorted_eq_filter _ _ _ happsorted, List.filter_append,
        List.filter_append, List.filter_filter]
      have hpart1 : (s.hist.filter fun a =>
          decide (t2 - a ≤ 10000) && decide (t1 - 10000 ≤ a)) =
          s.hist.filter fun t => decide (t2 - 10000 ≤ t) := by
        apply List.filter_congr
        intro a _
        by_cases hc : t2 - 10000 ≤ a
        · have e1 : decide (t2 - a ≤ 10000) = true := decide_eq_true (by omega)
          have e2 : decide (t1 - 10000 ≤ a) = true := decide_eq_true (by omega)
          have e3 : decide (t2 - 10000 ≤ a) = true := decide_eq_true hc
          rw [e1, e2, e3]
          rfl
        · have e1 : decide (t2 - a ≤ 10000) = false := decide_eq_false (by omega)
          have e3 : decide (t2 - 10000 ≤ a) = false := decide_eq_false hc
          rw [e1, e3]
          rfl
      rw [hpart1]
      congr 1
      have e1 : decide (t2 - t2 ≤ (10000 : Int)) = true := decide_eq_true (by omega)
      have e2 : decide (t2 - 10000 ≤ t2) = true := decide_eq_true (by omega)
      simp [List.filter_cons, e1, e2]
    · -- every closed 10-second window still holds at most `limit` publishes
      intro T
      have hsplit : (windowCount (s.hist ++ [t2]) T : Int) =
          (windowCount s.hist T : Int) +
            (if T ≤ t2 ∧ t2 ≤ T + 10000 then 1 else 0) := by
        unfold windowCount
        rw [List.filter_append, List.length_append]
        by_cases hT : T ≤ t2 ∧ t2 ≤ T + 10000
        · have e : decide (T ≤ t2 ∧ t2 ≤ T + 10000) = true := decide_eq_true hT
          simp [List.filter_cons, e, hT]
        · have e : decide (T ≤ t2 ∧ t2 ≤ T + 10000) = false := decide_eq_false hT
          simp [List.filter_cons, e, hT]
      by_cases hT : T ≤ t2 ∧ t2 ≤ T + 10000
      · have hmono : windowCount s.hist T ≤
            (s.hist.filter fun t => decide (t1 - 10000 ≤ t)).length := by
          unfold windowCount
          apply length_filter_mono
          intro x hx
          simp only [decide_eq_true_eq] at hx ⊢
          omega
        rw [hsplit, if_pos hT]
        have hcast : (windowCount s.hist T : Int) ≤
            ((s.hist.filter fun t => decide (t1 - 10000 ≤ t)).length : Int) := by
          exact_mod_cast hmono
        omega
      · rw [hsplit, if_neg hT]
        have := hwin T
        omega

/-- Helper: the budget invariant holds in every reachable state. -/
theorem budgetInv_reachable (limit : Int) (hlim : 0 ≤ limit) (s : BudgetSys)
    (hreach : BudgetReachable limit s) : BudgetInv limit s := by
  induction hreach with
  | init =>
    refine ⟨List.sorted_nil, ?_, ⟨-10000, by norm_num, rfl⟩, ?_⟩
    · intro t ht
      cases ht
    · intro T
      simpa [windowCount] using hlim
  | step hr hstep ih => exact budgetInv_step limit hlim _ _ ih hstep

/-- C3: in every reachable state of the persona worker's room budget
system, at most `max_bot_msgs_per_10s` bot-origin messages have been
published inside any closed sliding 10-second window: `should_speak`
refuses with reason `budget` once the pruned `bot_publish_times` deque
holds the limit, and a publish timestamp is recorded only after a
successful append. -/
theorem C3_bot_budget_sliding_window (limit : Int) (hlim : 0 ≤ limit) (s : BudgetSys)
    (hreach : BudgetReachable limit s) (T : Int) :
    (windowCount s.hist T : Int) ≤ limit :=
  (budgetInv_reachable limit hlim s hreach).2.2.2 T

/-- Witness for C3: a single publish at time 5 under limit 5, window at 0. -/
theorem C3_bot_budget_sliding_window_witness :
    (windowCount [(5 : Int)] 0 : Int) ≤ 5 :=
  C3_bot_budget_sliding_window 5 (by norm_num)
    { clock := 5, deque := pruneBudget 10000 5 (pruneBudget 10000 0 [] ++ [5]), hist := [5] }
    (BudgetReachable.step BudgetReachable.init
      (BudgetStep.publish {} 0 5 (by norm_num) (by norm_num) (by decide)))
    0

end Chatter
